import Mathlib

/-!
# Printing orders: order intake, lookup, CSV export and admin session

A shallow embedding of `server.js` (the Express application of the repository)
and the properties of its order-submission flow.

Conventions of the embedding
* JavaScript strings are Lean `String`s; a column that may be `NULL` or an
  environment variable that may be unset is an `Option String`; a field of the
  request body is a `FormValue`, which also covers the values that are not
  strings.
* `Math.random()` is an explicit stream of binary64 outcomes in `[0,1)`, read
  through a cursor that every draw advances.
* The SQLite table `orders` is a list of rows with the `AUTOINCREMENT` counter;
  its three statements (`db.get`, `db.all`, `db.run`) are functions on it.
* The asynchronous retry loop `tryUnique` has no bound in the source, so its
  embedding takes a fuel argument and answers `none` when the fuel runs out.
-/

namespace PrintingOrders

/-! ## The random source and `generateCode` -/

/-- An outcome of `Math.random()`: the binary64 number `m / 2^e` with a
significand of at most 53 bits, at least 0 and less than 1. Every binary64
number of `[0,1)` has this form (with `e ≤ 1074`). -/
structure RandomDouble where
  m : Nat
  e : Nat
  sig : m < 2 ^ 53
  ltOne : m < 2 ^ e

/-- The random source: the successive outcomes of `Math.random()`. -/
abbrev RandomSource := Nat → RandomDouble

/-- Number of low bits that do not fit a 53-bit significand: how many times `n`
is halved before it drops below `2^53` (the second argument bounds the search;
`n` itself is always enough). -/
def excessBits (n : Nat) : Nat → Nat
  | 0 => 0
  | k + 1 => if n < 2 ^ 53 then 0 else excessBits (n / 2) k + 1

/-- Round the exact significand `n` at `s` dropped bits, to nearest, ties to even. -/
def roundAt (n s : Nat) : Nat :=
  let q := n / 2 ^ s
  let r := n % 2 ^ s
  let half := 2 ^ (s - 1)
  if s = 0 then n
  else if r < half then q * 2 ^ s
  else if half < r then (q + 1) * 2 ^ s
  else if q % 2 = 0 then q * 2 ^ s
  else (q + 1) * 2 ^ s

/-- IEEE-754 binary64 rounding of the exact value `n / 2^e` (for a fixed `e`):
the result is `roundToDouble n / 2^e`. -/
def roundToDouble (n : Nat) : Nat :=
  roundAt n (excessBits n n)

/-- `Math.floor(Math.random() * len)` for the outcome `r`: the product
`r.m * len / 2^r.e` is rounded to binary64, then floored. -/
def floorRandomTimes (r : RandomDouble) (len : Nat) : Nat :=
  roundToDouble (r.m * len) / 2 ^ r.e

/-- `s.charAt(i)`: the one-character string at index `i`, or the empty string
when `i` is out of range. -/
def charAt (s : String) (i : Nat) : String :=
  match s.data.get? i with
  | some c => String.singleton c
  | none => ""

/-- The alphabet of `generateCode` (`chars` in the source). -/
def chars : String := "ABCDEFGHJKMNPQRSTUVWXYZ23456789"

/-- The `for` loop of `generateCode`: `n` iterations left, `s` built so far,
`k` the cursor in the random source. -/
def generateCodeLoop (rnd : RandomSource) : Nat → Nat → String → String × Nat
  | 0, k, s => (s, k)
  | n + 1, k, s =>
    generateCodeLoop rnd n (k + 1) (s ++ charAt chars (floorRandomTimes (rnd k) chars.length))

/-- `generateCode(len)`: returns the code and the cursor after its `len` draws.
The source's default is `len = 6`. -/
def generateCode (rnd : RandomSource) (k : Nat) (len : Nat) : String × Nat :=
  generateCodeLoop rnd len k ""

/-! ## Library functions used by the handlers

`validator`, `path` and `multer` are dependencies of the application, not part
of its sources. `validator.isEmail` is left as a parameter of the handlers; the
others are small enough to be written down. -/

/-- The double-quote character. -/
def dquote : Char := Char.ofNat 34

/-- Truthiness of a column or environment variable that is `null`/`undefined`
or a string: only a non-empty string is truthy. -/
def truthy : Option String → Bool
  | none => false
  | some s => decide (s ≠ "")

/-- The JavaScript idiom `v || d` for a string-or-undefined `v` and a string `d`. -/
def orDefault (v : Option String) (d : String) : String :=
  match v with
  | some s => if s = "" then d else s
  | none => d

/-- Modelled from the spec: `validator.isLength` with the option `min`, of the
validator library, which is not under src/; per the spec `details` must be at
least 5 characters, so the check is that the number of characters is at least
`min`. -/
def validatorIsLength (str : String) (min : Nat) : Bool :=
  decide (min ≤ str.length)

/-- The entity that `validator.escape` writes for one character. -/
def escapeChar (c : Char) : String :=
  if c = '&' then "&amp;"
  else if c = dquote then "&quot;"
  else if c = Char.ofNat 39 then "&#x27;"
  else if c = '<' then "&lt;"
  else if c = '>' then "&gt;"
  else if c = '/' then "&#x2F;"
  else if c = Char.ofNat 92 then "&#x5C;"
  else if c = Char.ofNat 96 then "&#96;"
  else String.singleton c

/-- Modelled from the spec: `validator.escape(str)` of the validator library,
which is not under src/: the HTML-entity escaping the spec asks for. The library
replaces `&` first and then the quotes, angle brackets, slash, backslash and
backtick, which amounts to replacing each character by its entity. -/
def validatorEscape (str : String) : String :=
  String.join (str.data.map escapeChar)

/-- Scanner state of `path.extname`; `-1` stands for "not seen yet". -/
structure ExtState where
  startDot : Int
  startPart : Int
  end_ : Int
  matchedSlash : Bool
  preDotState : Int

/-- The backwards scan of `path.extname`: the first argument is `i + 1` for the
index `i` looked at next. -/
def extnameLoop (path : List Char) : Nat → ExtState → ExtState
  | 0, st => st
  | i + 1, st =>
    let code := path.getD i ' '
    if code = '/' then
      if !st.matchedSlash then
        ExtState.mk st.startDot (i + 1) st.end_ st.matchedSlash st.preDotState
      else extnameLoop path i st
    else
      let st1 :=
        if st.end_ = -1 then ExtState.mk st.startDot st.startPart (i + 1) false st.preDotState
        else st
      let st2 :=
        if code = '.' then
          if st1.startDot = -1 then
            ExtState.mk i st1.startPart st1.end_ st1.matchedSlash st1.preDotState
          else if st1.preDotState ≠ 1 then
            ExtState.mk st1.startDot st1.startPart st1.end_ st1.matchedSlash 1
          else st1
        else if st1.startDot ≠ -1 then
          ExtState.mk st1.startDot st1.startPart st1.end_ st1.matchedSlash (-1)
        else st1
      extnameLoop path i st2

/-- Node's `path.extname` (POSIX flavour), a runtime function outside src/: the
extension of the last path component, from its last dot, or the empty string
when that component has no dot or only a leading one. -/
def extname (path : String) : String :=
  let st := extnameLoop path.data path.data.length (ExtState.mk (-1) 0 (-1) true 0)
  if st.startDot = -1 ∨ st.end_ = -1 ∨ st.preDotState = 0 ∨
      (st.preDotState = 1 ∧ st.startDot = st.end_ - 1 ∧ st.startDot = st.startPart + 1) then ""
  else String.mk ((path.data.drop st.startDot.toNat).take (st.end_ - st.startDot).toNat)

/-- `String.prototype.toLowerCase`, on the ASCII letters. -/
def toLowerCase (s : String) : String :=
  String.mk (s.data.map Char.toLower)

/-- Whether `p` occurs in `s` as a contiguous block. -/
def occursIn (p : List Char) : List Char → Bool
  | [] => p.isEmpty
  | c :: cs => p.isPrefixOf (c :: cs) || occursIn p cs

/-- The alternatives of the regular expression `allowed`, in its order. -/
def allowedNames : List String :=
  ["pdf", "jpeg", "jpg", "png", "gif", "svg", "tif", "tiff"]

/-- `allowed.test(s)` for `allowed = /pdf|jpeg|jpg|png|gif|svg|tif|tiff/`: the
expression has no anchors, so it matches when some alternative occurs in `s`. -/
def allowedTest (s : String) : Bool :=
  allowedNames.any (fun n => occursIn n.data s.data)

/-! ## Upload middleware -/

/-- The `file` argument of the `fileFilter` callback: multer calls the filter
before it stores anything, with the original name and the MIME type of the part. -/
structure FileInfo where
  originalname : String
  mimetype : String

/-- A file part of the multipart request: a part that carries a file name (a
part without one is not a file for multer and counts as no upload), its size in
bytes, and the 16 random bytes from which multer's disk storage makes the
stored name if the file is kept. -/
structure IncomingFile extends FileInfo where
  named : originalname ≠ ""
  size : Nat
  nameBytes : List (Fin 256)
  nameLen : nameBytes.length = 16

/-- A hexadecimal digit. -/
def hexDigit (n : Nat) : Char :=
  "0123456789abcdef".data.getD n '0'

/-- The two hexadecimal digits of a byte. -/
def hexByte (b : Fin 256) : List Char :=
  [hexDigit (b.val / 16), hexDigit (b.val % 16)]

/-- The name under which multer's disk storage (option `dest`) stores a kept
file: the 16 random bytes in hexadecimal, 32 characters. -/
def IncomingFile.filename (f : IncomingFile) : String :=
  String.mk (f.nameBytes.flatMap hexByte)

/-- The object `req.file` that multer leaves for the handler. -/
structure ReqFile where
  filename : String
  originalname : String
  mimetype : String
  size : Nat
deriving DecidableEq

/-- The `fileFilter` callback of the upload configuration: the value `ok` that
it passes to `cb(null, ok)`. -/
def fileFilter (file : FileInfo) : Bool :=
  allowedTest (toLowerCase (extname file.originalname)) || allowedTest file.mimetype

/-- The `limits.fileSize` of the upload configuration. -/
def fileSizeLimit : Nat := 8 * 1024 * 1024

/-- The middleware `upload.single` on a request with at most one file part: a
file that the filter refuses is skipped without an error, a kept file above the
size limit aborts the request with multer's `LIMIT_FILE_SIZE`. Whether a file
of exactly the limit is refused depends on the multer release, which the
sources do not fix: `rejectsAtLimit` says so. -/
def uploadSingle (rejectsAtLimit : Bool) : Option IncomingFile → Except String (Option ReqFile)
  | none => .ok none
  | some f =>
    if fileFilter f.toFileInfo then
      if fileSizeLimit < f.size ∨ (rejectsAtLimit = true ∧ f.size = fileSizeLimit) then
        .error "LIMIT_FILE_SIZE"
      else .ok (some ⟨f.filename, f.originalname, f.mimetype, f.size⟩)
    else .ok none

/-! ## The table `orders` -/

/-- A row of the table `orders`. The `id` is the rowid that `INTEGER PRIMARY KEY
AUTOINCREMENT` assigns (at least 1); `phone` and the two file columns receive
`null` from the insert statements, the other columns always a string. -/
structure OrderRow where
  id : ℕ+
  code : String
  name : String
  email : String
  phone : Option String
  details : String
  file_filename : Option String
  file_originalname : Option String
  createdAt : String
deriving DecidableEq

/-- The database: the rows of `orders` in rowid order of insertion, and the
largest rowid ever assigned (what `AUTOINCREMENT` keeps in `sqlite_sequence`). -/
structure Db where
  rows : List OrderRow
  seq : Nat
deriving DecidableEq

/-- The values bound to the insert statement of `POST /api/orders`, in the
order of `params`. -/
structure InsertParams where
  code : String
  name : String
  email : String
  phone : Option String
  details : String
  file_filename : Option String
  file_originalname : Option String
  createdAt : String

/-- The codes of the stored orders. -/
def Db.codes (db : Db) : List String :=
  db.rows.map (fun r => r.code)

/-- Point lookup `SELECT ... FROM orders WHERE code = ?` through `db.get`: the
first matching row, if any. -/
def Db.get (db : Db) (code : String) : Except String (Option OrderRow) :=
  .ok (db.rows.find? (fun r => r.code = code))

/-- Full scan `SELECT * FROM orders ORDER BY id DESC` through `db.all`. -/
def Db.all (db : Db) : Except String (List OrderRow) :=
  .ok (db.rows.insertionSort (fun a b => b.id ≤ a.id))

/-- The rowid `AUTOINCREMENT` gives the next row: one more than the largest
rowid that ever existed in the table. -/
def Db.nextId (db : Db) : ℕ+ :=
  Nat.succPNat (db.rows.foldl (fun m r => max m r.id.val) db.seq)

/-- The statement `INSERT INTO orders (...) VALUES (?, ?, ?, ?, ?, ?, ?, ?)`
through `db.run`: the `UNIQUE` constraint on `code` refuses a code that is
already stored, otherwise the row is appended under a new rowid. -/
def Db.run (db : Db) (p : InsertParams) : Except String Db :=
  if p.code ∈ db.codes then .error "SQLITE_CONSTRAINT: UNIQUE constraint failed: orders.code"
  else
    .ok ⟨db.rows ++ [⟨db.nextId, p.code, p.name, p.email, p.phone, p.details,
      p.file_filename, p.file_originalname, p.createdAt⟩], db.nextId.val⟩

/-! ## Requests and responses -/

/-- The file object of the legacy order shape. -/
structure FileJson where
  filename : String
  originalname : Option String
deriving DecidableEq

/-- The order object that `GET /api/orders/:code` answers. -/
structure OrderJson where
  id : ℕ+
  code : String
  name : String
  email : String
  phone : Option String
  details : String
  file : Option FileJson
  createdAt : String
deriving DecidableEq

/-- The bodies the routes send. -/
inductive Body where
  /-- The JSON object with `success: false` and an `error` message. -/
  | failure (error : String)
  /-- The JSON object with `success: true`, `url` and `code`. -/
  | created (url code : String)
  /-- The JSON object with only `success: true`. -/
  | ok
  /-- The JSON object with only an `error` message. -/
  | error (error : String)
  /-- The JSON array of rows of `GET /api/orders`. -/
  | rows (rows : List OrderRow)
  /-- The chunks written by `GET /api/orders.csv`, in order. -/
  | csv (chunks : List String)
  /-- The single order of `GET /api/orders/:code`. -/
  | order (order : OrderJson)
  /-- A plain text body, as sent by `res.send`. -/
  | text (text : String)
  /-- The error page of Express for an error that a middleware passes on or a
  handler throws. -/
  | errorPage (error : String)
deriving DecidableEq

/-- An HTTP response: status and body. -/
structure Response where
  status : Nat
  body : Body
deriving DecidableEq

/-- A field of `req.body`. The body parsers (JSON, extended urlencoded,
multipart) leave a field absent, a string, or a value that is not a string
(`null`, a boolean, a number, an array, an object); of the latter only its
truthiness matters to the handler, and the text that the `TEXT` column holds
when the value is bound to the insert. -/
inductive FormValue where
  | undefined
  | string (s : String)
  | other (truthy : Bool) (stored : String)
deriving DecidableEq

/-- Truthiness of a field: a non-empty string, or a truthy value of another type. -/
def FormValue.truthy : FormValue → Bool
  | .undefined => false
  | .string s => decide (s ≠ "")
  | .other t _ => t

/-- Whether the field is a string. -/
def FormValue.isString : FormValue → Bool
  | .string _ => true
  | _ => false

/-- The string of a string field (the empty string for any other field). -/
def FormValue.str : FormValue → String
  | .string s => s
  | _ => ""

/-- The text that a `TEXT` column holds for `v || null` bound to the insert. -/
def FormValue.orNull : FormValue → Option String
  | .undefined => none
  | .string s => if s = "" then none else some s
  | .other t stored => if t then some stored else none

/-- The check `assertString` with which every function of the validator library
starts: a value that is not a string makes it throw a `TypeError`. -/
def assertString : FormValue → Except String String
  | .string s => .ok s
  | _ => .error "TypeError"

/-- The fields of `req.body` that `POST /api/orders` reads. -/
structure OrderForm where
  name : FormValue
  email : FormValue
  phone : FormValue
  details : FormValue

/-- The request as the handler of `POST /api/orders` sees it, after the
middlewares. -/
structure OrderRequest where
  body : OrderForm
  file : Option ReqFile

/-- The environment variables the application reads. -/
structure Env where
  ADMIN_USER : Option String
  ADMIN_PASS : Option String
  SMTP_HOST : Option String
  NOTIFY_EMAIL : Option String
  SMTP_FROM : Option String

/-- The notification message handed to the mail transport. -/
structure Mail where
  from_ : String
  to_ : String
  subject : String
  text : String
deriving DecidableEq

/-- What a run of the handler of `POST /api/orders` leaves: the response, the
database, the notification it hands to the transport (if any) and the cursor of
the random source. -/
structure OrderOutcome where
  res : Response
  db : Db
  mail : Option Mail
  cursor : Nat
deriving DecidableEq

/-! ## `POST /api/orders` -/

/-- The retry loop `tryUnique` on the current candidate `code`: looks the code
up, draws a new candidate while it is found. The result is the argument given
to the callback (`none` for `cb(null)`), the final value of `code` and the
cursor; the loop has no bound in the source, the fuel is the number of lookups
the embedding follows. -/
def tryUnique (db : Db) (rnd : RandomSource) :
    Nat → String → Nat → Option (Option String × String × Nat)
  | 0, _, _ => none
  | fuel + 1, code, k =>
    match db.get code with
    | .error err => some (some err, code, k)
    | .ok (some _) =>
      let g := generateCode rnd k 6
      tryUnique db rnd fuel g.1 g.2
    | .ok none => some (none, code, k)

/-- The notification of a created order: sent only when `SMTP_HOST` and
`NOTIFY_EMAIL` are configured. -/
def notification (env : Env) (code safeName email safeDetails url : String) : Option Mail :=
  if truthy env.SMTP_HOST && truthy env.NOTIFY_EMAIL then
    some ⟨orDefault env.SMTP_FROM "no-reply@printing.example", env.NOTIFY_EMAIL.getD "",
      "New printing order: " ++ code,
      "Order " ++ code ++ " by " ++ safeName ++ " (" ++ email ++ ")\n\nDetails:\n" ++
        safeDetails ++ "\n\nView: " ++ url⟩
  else none

/-- The handler of `POST /api/orders`. `isEmail` is `validator.isEmail` on
strings, `now` the value of `new Date().toISOString()`, `k` the cursor of the
random source; `none` means that the retry loop was still running when the fuel
ran out. A validator call on a field that is not a string throws, and Express
answers the error page with status 500. -/
def postOrders (isEmail : String → Bool) (env : Env) (now : String) (rnd : RandomSource)
    (fuel : Nat) (db : Db) (k : Nat) (req : OrderRequest) : Option OrderOutcome :=
  if !req.body.name.truthy || !req.body.email.truthy || !req.body.details.truthy then
    some ⟨⟨400, .failure "name, email and details are required"⟩, db, none, k⟩
  else
    match assertString req.body.email with
    | .error err => some ⟨⟨500, .errorPage err⟩, db, none, k⟩
    | .ok email =>
      if !isEmail email then some ⟨⟨400, .failure "invalid email"⟩, db, none, k⟩
      else
        match assertString req.body.details with
        | .error err => some ⟨⟨500, .errorPage err⟩, db, none, k⟩
        | .ok details =>
          if !validatorIsLength details 5 then
            some ⟨⟨400, .failure "details too short"⟩, db, none, k⟩
          else
            match assertString req.body.name with
            | .error err => some ⟨⟨500, .errorPage err⟩, db, none, k⟩
            | .ok name =>
              let safeName := validatorEscape name
              let safeDetails := validatorEscape details
              let g := generateCode rnd k 6
              match tryUnique db rnd fuel g.1 g.2 with
              | none => none
              | some (some _, _, k1) => some ⟨⟨500, .failure "DB error"⟩, db, none, k1⟩
              | some (none, code, k1) =>
                let createdAt := now
                let file_filename := req.file.map (fun f => f.filename)
                let file_originalname := req.file.map (fun f => f.originalname)
                match db.run ⟨code, name, email, req.body.phone.orNull, details, file_filename,
                    file_originalname, createdAt⟩ with
                | .error _ => some ⟨⟨500, .failure "DB insert error"⟩, db, none, k1⟩
                | .ok db1 =>
                  let url := "/o/" ++ code
                  some ⟨⟨200, .created url code⟩, db1,
                    notification env code safeName email safeDetails url, k1⟩

/-- The route `POST /api/orders`: the rate limiter, then `upload.single`, then
the handler. `limited` is the verdict of the rate limiter on this request (more
than 10 requests of the client in the last minute), which answers 429 itself; an
error of the upload middleware goes to the error handler of Express; in both
cases the handler does not run. -/
def postOrdersRoute (limited rejectsAtLimit : Bool) (isEmail : String → Bool) (env : Env)
    (now : String) (rnd : RandomSource) (fuel : Nat) (db : Db) (k : Nat) (body : OrderForm)
    (upload : Option IncomingFile) : Option OrderOutcome :=
  if limited then some ⟨⟨429, .error "Too many requests, slow down"⟩, db, none, k⟩
  else
    match uploadSingle rejectsAtLimit upload with
    | .error code => some ⟨⟨500, .errorPage code⟩, db, none, k⟩
    | .ok file => postOrders isEmail env now rnd fuel db k ⟨body, file⟩

/-! ## Admin session and the read routes -/

/-- The session object `req.session`; a new or destroyed session has no
`isAdmin` flag, which reads as `false`. -/
structure Session where
  isAdmin : Bool
deriving DecidableEq

/-- The middleware `checkSessionAuth`: `next` is the answer of the route it
protects. -/
def checkSessionAuth (session : Session) (next : Response) : Response :=
  if session.isAdmin then next else ⟨401, .error "Unauthorized"⟩

/-- The route `GET /api/orders`. -/
def getOrders (session : Session) (db : Db) : Response :=
  checkSessionAuth session
    (match db.all with
     | .error _ => ⟨500, .error "DB error"⟩
     | .ok rows => ⟨200, .rows rows⟩)

/-- A value read from a row object: `null`, a number or a string. -/
inductive JsValue where
  | null
  | number (n : Nat)
  | string (s : String)
deriving DecidableEq

/-- The column names `cols` of the CSV export. -/
def cols : List String :=
  ["id", "code", "name", "email", "phone", "details", "file_filename", "file_originalname",
    "createdAt"]

/-- A nullable text column as a value. -/
def JsValue.ofText : Option String → JsValue
  | none => .null
  | some s => .string s

/-- The property access `r[c]` on a row object. -/
def OrderRow.column (r : OrderRow) (c : String) : JsValue :=
  if c = "id" then .number r.id.val
  else if c = "code" then .string r.code
  else if c = "name" then .string r.name
  else if c = "email" then .string r.email
  else if c = "phone" then .ofText r.phone
  else if c = "details" then .string r.details
  else if c = "file_filename" then .ofText r.file_filename
  else if c = "file_originalname" then .ofText r.file_originalname
  else if c = "createdAt" then .string r.createdAt
  else .null

/-- The expression `String(v || '')`: `null`, `0` and the empty string give the
empty string, a number its decimal digits. -/
def JsValue.orEmptyString : JsValue → String
  | .null => ""
  | .number n => if n = 0 then "" else toString n
  | .string s => s

/-- The replacement `.replace(/"/g, '""')`: every double quote is doubled. -/
def replaceQuotes (s : String) : String :=
  String.mk (s.data.flatMap (fun c => if c = dquote then [dquote, dquote] else [c]))

/-- One field of a CSV line, for the column `c` of the row `r`. -/
def csvField (r : OrderRow) (c : String) : String :=
  String.singleton dquote ++ replaceQuotes (r.column c).orEmptyString ++ String.singleton dquote

/-- The `line` that the CSV export builds for the row `r`. -/
def csvLine (r : OrderRow) : String :=
  String.intercalate "," (cols.map (csvField r))

/-- The route `GET /api/orders.csv`: the header line and one line per row, each
written with its line feed. -/
def getOrdersCsv (session : Session) (db : Db) : Response :=
  checkSessionAuth session
    (match db.all with
     | .error _ => ⟨500, .text "DB error"⟩
     | .ok rows =>
       ⟨200, .csv ((String.intercalate "," cols ++ "\n") :: rows.map (fun r => csvLine r ++ "\n"))⟩)

/-- The route `GET /api/orders/:code`. -/
def getOrderByCode (db : Db) (code : String) : Response :=
  match db.get code with
  | .error _ => ⟨500, .error "DB error"⟩
  | .ok none => ⟨404, .error "Order not found"⟩
  | .ok (some row) =>
    ⟨200, .order ⟨row.id, row.code, row.name, row.email, row.phone, row.details,
      if truthy row.file_filename then
        some ⟨row.file_filename.getD "", row.file_originalname⟩
      else none,
      row.createdAt⟩⟩

/-- The route `POST /admin/login`: `user` and `pass` are the fields of the body. -/
def adminLogin (env : Env) (session : Session) (user pass : Option String) :
    Response × Session :=
  let adminUser := orDefault env.ADMIN_USER "admin"
  let adminPass := orDefault env.ADMIN_PASS "password"
  if user = some adminUser ∧ pass = some adminPass then (⟨200, .ok⟩, ⟨true⟩)
  else (⟨403, .failure "Invalid credentials"⟩, session)

/-- The route `POST /admin/logout`: the session is destroyed. -/
def adminLogout (_session : Session) : Response × Session :=
  (⟨200, .ok⟩, ⟨false⟩)

/-- A request of an admin client. -/
inductive AdminRequest where
  | login (user pass : Option String)
  | logout
  | listOrders
  | exportCsv
deriving DecidableEq

/-- One request of an admin client on its session: the response and the
session afterwards. -/
def adminStep (env : Env) (db : Db) (session : Session) : AdminRequest → Response × Session
  | .login user pass => adminLogin env session user pass
  | .logout => adminLogout session
  | .listOrders => (getOrders session db, session)
  | .exportCsv => (getOrdersCsv session db, session)

/-- The session after a sequence of requests of one client. -/
def runSession (env : Env) (db : Db) (session : Session) (reqs : List AdminRequest) : Session :=
  reqs.foldl (fun s r => (adminStep env db s r).2) session

/-! ## Reading a CSV field back -/

/-- Un-doubling of quotes: every pair of double quotes becomes one. -/
def undoubleQuotes : List Char → List Char
  | [] => []
  | [c] => [c]
  | c :: d :: rest =>
    if c = dquote ∧ d = dquote then dquote :: undoubleQuotes rest
    else c :: undoubleQuotes (d :: rest)

/-- The text of a CSV field: the outer quotes removed, the inner ones un-doubled. -/
def readCsvField (field : String) : String :=
  String.mk (undoubleQuotes (field.data.drop 1).dropLast)

/-! ## Vocabulary of the statements -/

/-- The `i`-th candidate code of a submission that starts drawing at cursor `k`:
each candidate takes six draws. -/
def candidate (rnd : RandomSource) (k i : Nat) : String :=
  (generateCode rnd (k + 6 * i) 6).1

/-- The three validation checks of `POST /api/orders` all pass: name, email
and details are non-empty strings, the email passes the syntax check and the
details have at least 5 characters. -/
def passesChecks (isEmail : String → Bool) (form : OrderForm) : Prop :=
  (form.name.isString = true ∧ form.name.truthy = true) ∧
  (form.email.isString = true ∧ form.email.truthy = true) ∧
  (form.details.isString = true ∧ form.details.truthy = true) ∧
    isEmail form.email.str = true ∧ 5 ≤ form.details.str.length

instance (isEmail : String → Bool) (form : OrderForm) : Decidable (passesChecks isEmail form) := by
  unfold passesChecks
  infer_instance

/-- The row that an accepted submission inserts under the code `code`. -/
def insertedRow (db : Db) (now code : String) (req : OrderRequest) : OrderRow :=
  ⟨db.nextId, code, req.body.name.str, req.body.email.str, req.body.phone.orNull,
    req.body.details.str, req.file.map (fun f => f.filename),
    req.file.map (fun f => f.originalname), now⟩

/-- The login request that carries the configured admin credentials. -/
def goodLogin (env : Env) : AdminRequest :=
  .login (some (orDefault env.ADMIN_USER "admin")) (some (orDefault env.ADMIN_PASS "password"))

/-- The text that the CSV export writes for each column of a row, in the order
of `cols`: the decimal rowid, the text columns, and the empty text for `null`. -/
def columnTexts (r : OrderRow) : List String :=
  [toString r.id.val, r.code, r.name, r.email, r.phone.getD "", r.details,
    r.file_filename.getD "", r.file_originalname.getD "", r.createdAt]

/-! ## Sample data of the examples -/

/-- The outcome `0` of `Math.random()`: it selects the character `A`. -/
def zeroDraw : RandomDouble := ⟨0, 53, by decide, by decide⟩

/-- The outcome `1/16` of `Math.random()`: it selects the character `B`. -/
def sixteenthDraw : RandomDouble := ⟨1, 4, by decide, by decide⟩

/-- A random source whose first 120 outcomes are `0` and the later ones `1/16`:
twenty candidates `AAAAAA`, then `BBBBBB`. -/
def twentyThenFresh : RandomSource :=
  fun i => if i < 120 then zeroDraw else sixteenthDraw

/-- An environment with no variable set. -/
def emptyEnv : Env := ⟨none, none, none, none, none⟩

/-- The empty table. -/
def emptyDb : Db := ⟨[], 0⟩

/-- A table that holds one order, under the code `AAAAAA`. -/
def storedDb : Db :=
  ⟨[⟨1, "AAAAAA", "Jane Doe", "jane@example.com", none, "10x A4, color", none, none,
    "2024-01-01T00:00:00.000Z"⟩], 1⟩

/-- An email check that accepts the one address of the examples, which
`validator.isEmail` accepts too. -/
def acceptsExampleAddress (email : String) : Bool :=
  decide (email = "al@example.com")

/-- The form of the examples: a name with markup, a valid address, details of
five characters. -/
def exampleForm : OrderForm :=
  ⟨.string "<b>Al</b>", .string "al@example.com", .undefined, .string "hello"⟩

/-- A PDF upload of 1024 bytes that the filter keeps. -/
def pdfUpload : IncomingFile :=
  ⟨⟨"scan.pdf", "application/pdf"⟩, by decide, 1024,
    [15, 58, 156, 1, 2, 3, 4, 5, 6, 7, 8, 9, 10, 11, 12, 13], by decide⟩

/-- A PDF upload of one byte more than 8 MiB. -/
def bigUpload : IncomingFile :=
  ⟨⟨"big.pdf", "application/pdf"⟩, by decide, 8388609,
    [15, 58, 156, 1, 2, 3, 4, 5, 6, 7, 8, 9, 10, 11, 12, 13], by decide⟩

/-- An upload named `report.pdfx`, sent as `application/octet-stream`. -/
def pdfxUpload : IncomingFile :=
  ⟨⟨"report.pdfx", "application/octet-stream"⟩, by decide, 1024,
    [15, 58, 156, 1, 2, 3, 4, 5, 6, 7, 8, 9, 10, 11, 12, 13], by decide⟩

/-- The example form without its name. -/
def namelessForm : OrderForm :=
  ⟨.undefined, .string "al@example.com", .undefined, .string "hello"⟩

/-- The example form with the number 5 as email, as a JSON body can carry it. -/
def numberEmailForm : OrderForm :=
  ⟨.string "<b>Al</b>", .other true "5", .undefined, .string "hello"⟩

/-- The example form with details `hi`. -/
def shortForm : OrderForm :=
  ⟨.string "<b>Al</b>", .string "al@example.com", .undefined, .string "hi"⟩

/-- The time stamp of the examples. -/
def exampleNow : String := "2024-01-02T00:00:00.000Z"

/-- A random source whose first candidate is `AAAAAA` and the later ones
`BBBBBB`. -/
def oneThenFresh : RandomSource :=
  fun i => if i < 6 then zeroDraw else sixteenthDraw

/-- What the example form leaves on the empty table when every draw is 0. -/
def firstOutcome : OrderOutcome :=
  ⟨⟨200, .created "/o/AAAAAA" "AAAAAA"⟩,
    ⟨[⟨1, "AAAAAA", "<b>Al</b>", "al@example.com", none, "hello", none, none, exampleNow⟩], 1⟩,
    none, 6⟩

/-- What the example form leaves on `storedDb` under `oneThenFresh`. -/
def secondOutcome : OrderOutcome :=
  ⟨⟨200, .created "/o/BBBBBB" "BBBBBB"⟩,
    ⟨storedDb.rows ++
      [⟨2, "BBBBBB", "<b>Al</b>", "al@example.com", none, "hello", none, none, exampleNow⟩], 2⟩,
    none, 12⟩

/-- A row whose details contain double quotes. -/
def quotedRow : OrderRow :=
  ⟨1, "AAAAAA", "Jane Doe", "jane@example.com", none, "He said \"hi\"", none, none, exampleNow⟩

/-- The table that holds `quotedRow`. -/
def quotedDb : Db := ⟨[quotedRow], 1⟩

/-- What the example form with `pdfUpload` leaves on the empty table when every
draw is 0. -/
def namedOutcome : OrderOutcome :=
  ⟨⟨200, .created "/o/AAAAAA" "AAAAAA"⟩,
    ⟨[⟨1, "AAAAAA", "<b>Al</b>", "al@example.com", none, "hello",
      some "0f3a9c0102030405060708090a0b0c0d", some "scan.pdf", exampleNow⟩], 1⟩,
    none, 6⟩

/-! ## Rounding and the generated code -/

theorem excessBits_le (k : Nat) : ∀ (n j : Nat), n < 2 ^ (53 + j) → excessBits n k ≤ j := by
  induction k with
  | zero => intro n j _; simp [excessBits]
  | succ k ih =>
    intro n j h
    unfold excessBits
    split
    · exact Nat.zero_le _
    · rename_i hn
      cases j with
      | zero => exact absurd h hn
      | succ j =>
        have h2 : n / 2 < 2 ^ (53 + j) := by
          have : (2:Nat) ^ (53 + (j + 1)) = 2 ^ (53 + j) * 2 := by
            rw [← Nat.add_assoc, Nat.pow_succ]
          rw [this] at h
          omega
        have := ih (n / 2) j h2
        omega

theorem roundAt_le (n s : Nat) : roundAt n s ≤ n + 2 ^ (s - 1) := by
  unfold roundAt
  simp only
  have hdm : 2 ^ s * (n / 2 ^ s) + n % 2 ^ s = n := Nat.div_add_mod n (2 ^ s)
  have hq : n / 2 ^ s * 2 ^ s ≤ n := Nat.div_mul_le_self n (2 ^ s)
  have hsucc : (n / 2 ^ s + 1) * 2 ^ s = n / 2 ^ s * 2 ^ s + 2 ^ s := by ring
  have hcomm : 2 ^ s * (n / 2 ^ s) = n / 2 ^ s * 2 ^ s := Nat.mul_comm _ _
  by_cases hs : s = 0
  · simp [hs]
  · have h2 : (2:Nat) ^ s = 2 ^ (s - 1) * 2 := by
      rw [← Nat.pow_succ]; congr 1; omega
    rw [if_neg hs]
    split
    · omega
    · split
      · omega
      · split <;> omega

theorem roundToDouble_le (n : Nat) (h : n < 2 ^ 58) : roundToDouble n ≤ n + 16 := by
  unfold roundToDouble
  have hs : excessBits n n ≤ 5 := excessBits_le n n 5 (by simpa using h)
  have := roundAt_le n (excessBits n n)
  have hp : 2 ^ (excessBits n n - 1) ≤ 2 ^ 4 := Nat.pow_le_pow_right (by decide) (by omega)
  omega

theorem floorRandomTimes_lt (r : RandomDouble) : floorRandomTimes r chars.length < 31 := by
  have hlen : chars.length = 31 := by decide
  unfold floorRandomTimes
  rw [hlen, Nat.div_lt_iff_lt_mul (Nat.two_pow_pos _)]
  have h1 := r.sig
  have h2 := r.ltOne
  have := roundToDouble_le (r.m * 31) (by omega)
  omega

theorem charAt_of_lt (s : String) (i : Nat) (h : i < s.data.length) :
    ∃ c, c ∈ s.data ∧ charAt s i = String.singleton c := by
  refine ⟨s.data[i], List.getElem_mem h, ?_⟩
  unfold charAt
  rw [List.get?_eq_getElem?, List.getElem?_eq_getElem h]

theorem generateCodeLoop_spec (rnd : RandomSource) :
    ∀ (n k : Nat) (s : String),
      (generateCodeLoop rnd n k s).2 = k + n ∧
      ∃ l : List Char, l.length = n ∧ (∀ c ∈ l, c ∈ chars.data) ∧
        (generateCodeLoop rnd n k s).1.data = s.data ++ l := by
  intro n
  induction n with
  | zero => intro k s; exact ⟨rfl, [], rfl, by simp, by simp only [generateCodeLoop, List.append_nil]⟩
  | succ n ih =>
    intro k s
    obtain ⟨c, hc, hcs⟩ := charAt_of_lt chars (floorRandomTimes (rnd k) chars.length)
      (by
        have h := floorRandomTimes_lt (rnd k)
        have h31 : chars.data.length = 31 := by decide
        omega)
    obtain ⟨h2, l, hl, hmem, hdata⟩ :=
      ih (k + 1) (s ++ charAt chars (floorRandomTimes (rnd k) chars.length))
    refine ⟨by simp only [generateCodeLoop]; omega, c :: l, by simp [hl], ?_, ?_⟩
    · intro d hd
      rcases List.mem_cons.mp hd with rfl | hd
      · exact hc
      · exact hmem d hd
    · simp only [generateCodeLoop]
      rw [hdata, hcs]
      simp [String.data_append, String.singleton]

theorem generateCode_spec (rnd : RandomSource) (k : Nat) :
    (generateCode rnd k 6).2 = k + 6 ∧ (generateCode rnd k 6).1.length = 6 ∧
      ∀ c ∈ (generateCode rnd k 6).1.data, c ∈ chars.data := by
  obtain ⟨h2, l, hl, hmem, hdata⟩ := generateCodeLoop_spec rnd 6 k ""
  refine ⟨h2, ?_, ?_⟩
  · show (generateCodeLoop rnd 6 k "").1.data.length = 6
    rw [hdata]; simp [hl]
  · intro c hc
    have : c ∈ (generateCodeLoop rnd 6 k "").1.data := hc
    rw [hdata] at this
    simp at this
    exact hmem c this

/-! ## The retry loop -/

theorem find_code_none (db : Db) (code : String) :
    db.rows.find? (fun r => decide (r.code = code)) = none ↔ code ∉ db.codes := by
  simp only [List.find?_eq_none, Db.codes, List.mem_map, decide_eq_true_eq, not_exists, not_and]

theorem tryUnique_fresh (db : Db) (rnd : RandomSource) (fuel : Nat) (code : String) (k : Nat)
    (h : code ∉ db.codes) : tryUnique db rnd (fuel + 1) code k = some (none, code, k) := by
  have hf := (find_code_none db code).mpr h
  simp only [tryUnique, Db.get, hf]

theorem tryUnique_stored (db : Db) (rnd : RandomSource) (fuel : Nat) (code : String) (k : Nat)
    (h : code ∈ db.codes) :
    tryUnique db rnd (fuel + 1) code k =
      tryUnique db rnd fuel (generateCode rnd k 6).1 (generateCode rnd k 6).2 := by
  cases hf : db.rows.find? (fun r => decide (r.code = code)) with
  | none => exact absurd h ((find_code_none db code).mp hf)
  | some r => simp only [tryUnique, Db.get, hf]

theorem candidate_cursor (rnd : RandomSource) (k i : Nat) :
    (generateCode rnd (k + 6 * (i + 1)) 6).2 = k + 6 * (i + 1 + 1) := by
  rw [(generateCode_spec rnd _).1]; omega

theorem tryUnique_found (db : Db) (rnd : RandomSource) (k : Nat) :
    ∀ (fuel n i : Nat), n < fuel → (∀ j, j < n → candidate rnd k (i + j) ∈ db.codes) →
      candidate rnd k (i + n) ∉ db.codes →
      tryUnique db rnd fuel (candidate rnd k i) (k + 6 * (i + 1)) =
        some (none, candidate rnd k (i + n), k + 6 * (i + n + 1)) := by
  intro fuel
  induction fuel with
  | zero => intro n i h; omega
  | succ fuel ih =>
    intro n i hn hstored hfresh
    cases n with
    | zero => exact tryUnique_fresh db rnd fuel _ _ hfresh
    | succ n =>
      rw [tryUnique_stored db rnd fuel _ _ (by simpa using hstored 0 (Nat.succ_pos n)),
        candidate_cursor]
      have := ih n (i + 1) (by omega)
        (fun j hj => by have := hstored (j + 1) (by omega); rwa [show i + 1 + j = i + (j + 1) by omega])
        (by rwa [show i + 1 + n = i + (n + 1) by omega])
      rw [show i + (n + 1) = i + 1 + n by omega]
      exact this

theorem tryUnique_none (db : Db) (rnd : RandomSource) (k : Nat) :
    ∀ (fuel i : Nat), (∀ j, j < fuel → candidate rnd k (i + j) ∈ db.codes) →
      tryUnique db rnd fuel (candidate rnd k i) (k + 6 * (i + 1)) = none := by
  intro fuel
  induction fuel with
  | zero => intro i _; rfl
  | succ fuel ih =>
    intro i hstored
    rw [tryUnique_stored db rnd fuel _ _ (by simpa using hstored 0 (Nat.succ_pos fuel)),
      candidate_cursor]
    exact ih (i + 1)
      (fun j hj => by have := hstored (j + 1) (by omega); rwa [show i + 1 + j = i + (j + 1) by omega])

/-! ## The answers of the handler and of the route -/

theorem isString_iff (v : FormValue) : v.isString = true ↔ v = .string v.str := by
  cases v <;> simp [FormValue.isString, FormValue.str]

theorem postOrders_missing (isEmail : String → Bool) (env : Env) (now : String)
    (rnd : RandomSource) (fuel : Nat) (db : Db) (k : Nat) (req : OrderRequest)
    (h : req.body.name.truthy = false ∨ req.body.email.truthy = false ∨
      req.body.details.truthy = false) :
    postOrders isEmail env now rnd fuel db k req =
      some ⟨⟨400, .failure "name, email and details are required"⟩, db, none, k⟩ := by
  unfold postOrders
  rw [if_pos]
  rcases h with h | h | h <;> simp [h]

theorem postOrders_invalidEmail (isEmail : String → Bool) (env : Env) (now : String)
    (rnd : RandomSource) (fuel : Nat) (db : Db) (k : Nat) (req : OrderRequest) (e : String)
    (hn : req.body.name.truthy = true) (he : req.body.email.truthy = true)
    (hd : req.body.details.truthy = true) (hs : req.body.email = .string e)
    (h : isEmail e = false) :
    postOrders isEmail env now rnd fuel db k req =
      some ⟨⟨400, .failure "invalid email"⟩, db, none, k⟩ := by
  unfold postOrders
  rw [if_neg (by simp [hn, he, hd])]
  simp only [hs, assertString, h, Bool.not_false, if_true]

theorem postOrders_tooShort (isEmail : String → Bool) (env : Env) (now : String)
    (rnd : RandomSource) (fuel : Nat) (db : Db) (k : Nat) (req : OrderRequest) (e d : String)
    (hn : req.body.name.truthy = true) (he : req.body.email.truthy = true)
    (hd : req.body.details.truthy = true) (hs : req.body.email = .string e)
    (h : isEmail e = true) (hds : req.body.details = .string d) (hl : d.length < 5) :
    postOrders isEmail env now rnd fuel db k req =
      some ⟨⟨400, .failure "details too short"⟩, db, none, k⟩ := by
  unfold postOrders
  rw [if_neg (by simp [hn, he, hd])]
  have : validatorIsLength d 5 = false := by
    simp only [validatorIsLength, decide_eq_false_iff_not]; omega
  simp [hs, hds, assertString, h, this]

/-- A present field that is not a string makes the validator throw as soon as
its check is reached. -/
theorem postOrders_throws (isEmail : String → Bool) (env : Env) (now : String)
    (rnd : RandomSource) (fuel : Nat) (db : Db) (k : Nat) (req : OrderRequest)
    (hn : req.body.name.truthy = true) (he : req.body.email.truthy = true)
    (hd : req.body.details.truthy = true)
    (h : req.body.email.isString = false ∨
      (req.body.email.isString = true ∧ isEmail req.body.email.str = true ∧
        (req.body.details.isString = false ∨
          (req.body.details.isString = true ∧ 5 ≤ req.body.details.str.length ∧
            req.body.name.isString = false)))) :
    postOrders isEmail env now rnd fuel db k req =
      some ⟨⟨500, .errorPage "TypeError"⟩, db, none, k⟩ := by
  unfold postOrders
  rw [if_neg (by simp [hn, he, hd])]
  obtain ⟨⟨name, email, phone, details⟩, file⟩ := req
  cases email <;> cases details <;> cases name <;>
    simp_all [assertString, FormValue.isString, FormValue.str, validatorIsLength]

theorem postOrders_checked (isEmail : String → Bool) (env : Env) (now : String)
    (rnd : RandomSource) (fuel : Nat) (db : Db) (k : Nat) (req : OrderRequest)
    (h : passesChecks isEmail req.body) :
    postOrders isEmail env now rnd fuel db k req =
      match tryUnique db rnd fuel (candidate rnd k 0) (k + 6 * (0 + 1)) with
      | none => none
      | some (some _, _, k1) => some ⟨⟨500, .failure "DB error"⟩, db, none, k1⟩
      | some (none, code, k1) =>
        match db.run ⟨code, req.body.name.str, req.body.email.str, req.body.phone.orNull,
            req.body.details.str, req.file.map (fun f => f.filename),
            req.file.map (fun f => f.originalname), now⟩ with
        | .error _ => some ⟨⟨500, .failure "DB insert error"⟩, db, none, k1⟩
        | .ok db1 =>
          some ⟨⟨200, .created ("/o/" ++ code) code⟩, db1,
            notification env code (validatorEscape req.body.name.str) req.body.email.str
              (validatorEscape req.body.details.str) ("/o/" ++ code), k1⟩ := by
  obtain ⟨⟨hns, hn⟩, ⟨hes, he⟩, ⟨hds, hd⟩, hm, hl⟩ := h
  have hg : (generateCode rnd k 6).2 = k + 6 * (0 + 1) := by
    rw [(generateCode_spec rnd k).1]
  obtain ⟨⟨name, email, phone, details⟩, file⟩ := req
  cases name with
  | string n =>
    cases email with
    | string e =>
      cases details with
      | string d =>
        simp only [FormValue.str] at hm hl
        have hlen : validatorIsLength d 5 = true := by
          simp only [validatorIsLength, decide_eq_true_eq]; exact hl
        unfold postOrders
        rw [if_neg (by simp [hn, he, hd])]
        simp only [assertString, FormValue.str, hlen, hm, Bool.not_true, Bool.false_eq_true,
          if_false, hg, candidate, Nat.mul_zero, Nat.add_zero]
      | undefined => simp [FormValue.isString] at hds
      | other t s => simp [FormValue.isString] at hds
    | undefined => simp [FormValue.isString] at hes
    | other t s => simp [FormValue.isString] at hes
  | undefined => simp [FormValue.isString] at hns
  | other t s => simp [FormValue.isString] at hns

theorem postOrders_accepts (isEmail : String → Bool) (env : Env) (now : String)
    (rnd : RandomSource) (fuel : Nat) (db : Db) (k : Nat) (req : OrderRequest) (n : Nat)
    (h : passesChecks isEmail req.body) (hn : n < fuel)
    (hstored : ∀ j, j < n → candidate rnd k j ∈ db.codes)
    (hfresh : candidate rnd k n ∉ db.codes) :
    postOrders isEmail env now rnd fuel db k req =
      some ⟨⟨200, .created ("/o/" ++ candidate rnd k n) (candidate rnd k n)⟩,
        ⟨db.rows ++ [insertedRow db now (candidate rnd k n) req], db.nextId.val⟩,
        notification env (candidate rnd k n) (validatorEscape req.body.name.str)
          req.body.email.str (validatorEscape req.body.details.str)
          ("/o/" ++ candidate rnd k n), k + 6 * (n + 1)⟩ := by
  rw [postOrders_checked isEmail env now rnd fuel db k req h,
    tryUnique_found db rnd k fuel n 0 hn (fun j hj => by simpa using hstored j hj)
      (by simpa using hfresh)]
  simp only [Nat.zero_add, Db.run, if_neg hfresh, insertedRow]

theorem postOrders_running (isEmail : String → Bool) (env : Env) (now : String)
    (rnd : RandomSource) (fuel : Nat) (db : Db) (k : Nat) (req : OrderRequest)
    (h : passesChecks isEmail req.body)
    (hstored : ∀ j, j < fuel → candidate rnd k j ∈ db.codes) :
    postOrders isEmail env now rnd fuel db k req = none := by
  rw [postOrders_checked isEmail env now rnd fuel db k req h,
    tryUnique_none db rnd k fuel 0 (fun j hj => by simpa using hstored j hj)]

theorem not_passesChecks (isEmail : String → Bool) (form : OrderForm)
    (h : ¬ passesChecks isEmail form) :
    (form.name.truthy = false ∨ form.email.truthy = false ∨ form.details.truthy = false) ∨
    ((form.name.truthy = true ∧ form.email.truthy = true ∧ form.details.truthy = true) ∧
      ((∃ e, form.email = .string e ∧ isEmail e = false) ∨
        (∃ e d, form.email = .string e ∧ isEmail e = true ∧ form.details = .string d ∧
          d.length < 5) ∨
        (form.email.isString = false ∨
          (form.email.isString = true ∧ isEmail form.email.str = true ∧
            (form.details.isString = false ∨
              (form.details.isString = true ∧ 5 ≤ form.details.str.length ∧
                form.name.isString = false)))))) := by
  unfold passesChecks at h
  by_cases hn : form.name.truthy = true
  · by_cases he : form.email.truthy = true
    · by_cases hd : form.details.truthy = true
      · right
        refine ⟨⟨hn, he, hd⟩, ?_⟩
        cases hes : form.email.isString with
        | false => exact Or.inr (Or.inr (Or.inl rfl))
        | true =>
          have hee := (isString_iff _).mp hes
          cases hm : isEmail form.email.str with
          | false => exact Or.inl ⟨_, hee, hm⟩
          | true =>
            cases hds : form.details.isString with
            | false => exact Or.inr (Or.inr (Or.inr ⟨rfl, rfl, Or.inl rfl⟩))
            | true =>
              have hdd := (isString_iff _).mp hds
              by_cases hl : 5 ≤ form.details.str.length
              · cases hns : form.name.isString with
                | false => exact Or.inr (Or.inr (Or.inr ⟨rfl, rfl, Or.inr ⟨rfl, hl, rfl⟩⟩))
                | true => exact absurd ⟨⟨hns, hn⟩, ⟨hes, he⟩, ⟨hds, hd⟩, hm, hl⟩ h
              · exact Or.inr (Or.inl ⟨_, _, hee, hm, hdd, by omega⟩)
      · exact Or.inl (Or.inr (Or.inr (by simpa using hd)))
    · exact Or.inl (Or.inr (Or.inl (by simpa using he)))
  · exact Or.inl (Or.inl (by simpa using hn))

/-- A submission that does not pass the checks is answered at once, by one of
the three rejections of validation or by the error page of a thrown
`TypeError`; the database and the random source are as before. -/
theorem postOrders_rejects (isEmail : String → Bool) (env : Env) (now : String)
    (rnd : RandomSource) (fuel : Nat) (db : Db) (k : Nat) (req : OrderRequest)
    (h : ¬ passesChecks isEmail req.body) :
    ∃ res, postOrders isEmail env now rnd fuel db k req = some ⟨res, db, none, k⟩ ∧
      ((∃ msg, res = ⟨400, .failure msg⟩ ∧
        (msg = "name, email and details are required" ∨ msg = "invalid email" ∨
          msg = "details too short")) ∨
        res = ⟨500, .errorPage "TypeError"⟩) := by
  rcases not_passesChecks isEmail req.body h with
    h1 | ⟨⟨hn, he, hd⟩, ⟨e, hs, hm⟩ | ⟨e, d, hs, hm, hds, hl⟩ | ht⟩
  · exact ⟨_, postOrders_missing isEmail env now rnd fuel db k req h1,
      Or.inl ⟨_, rfl, Or.inl rfl⟩⟩
  · exact ⟨_, postOrders_invalidEmail isEmail env now rnd fuel db k req e hn he hd hs hm,
      Or.inl ⟨_, rfl, Or.inr (Or.inl rfl)⟩⟩
  · exact ⟨_, postOrders_tooShort isEmail env now rnd fuel db k req e d hn he hd hs hm hds hl,
      Or.inl ⟨_, rfl, Or.inr (Or.inr rfl)⟩⟩
  · exact ⟨_, postOrders_throws isEmail env now rnd fuel db k req hn he hd ht, Or.inr rfl⟩

/-- Every answer of the handler is either an immediate one (a rejection by
validation or the error page of a thrown `TypeError`), which leaves the database
as it was, or the insertion of the first fresh candidate. -/
theorem postOrders_cases (isEmail : String → Bool) (env : Env) (now : String)
    (rnd : RandomSource) (fuel : Nat) (db : Db) (k : Nat) (req : OrderRequest)
    (o : OrderOutcome) (h : postOrders isEmail env now rnd fuel db k req = some o) :
    (¬ passesChecks isEmail req.body ∧ ∃ res, o = ⟨res, db, none, k⟩ ∧
      ((∃ msg, res = ⟨400, .failure msg⟩ ∧
        (msg = "name, email and details are required" ∨ msg = "invalid email" ∨
          msg = "details too short")) ∨
        res = ⟨500, .errorPage "TypeError"⟩)) ∨
    (passesChecks isEmail req.body ∧ ∃ n, n < fuel ∧
      (∀ j, j < n → candidate rnd k j ∈ db.codes) ∧ candidate rnd k n ∉ db.codes ∧
      o = ⟨⟨200, .created ("/o/" ++ candidate rnd k n) (candidate rnd k n)⟩,
        ⟨db.rows ++ [insertedRow db now (candidate rnd k n) req], db.nextId.val⟩,
        notification env (candidate rnd k n) (validatorEscape req.body.name.str)
          req.body.email.str (validatorEscape req.body.details.str)
          ("/o/" ++ candidate rnd k n), k + 6 * (n + 1)⟩) := by
  by_cases hp : passesChecks isEmail req.body
  · right
    refine ⟨hp, ?_⟩
    by_cases hex : ∃ n, n < fuel ∧ candidate rnd k n ∉ db.codes
    · classical
      have hmin : ∀ j, j < Nat.find hex → candidate rnd k j ∈ db.codes := by
        intro j hj
        by_contra hc
        exact Nat.find_min hex hj ⟨by have := (Nat.find_spec hex).1; omega, hc⟩
      have := postOrders_accepts isEmail env now rnd fuel db k req (Nat.find hex) hp
        (Nat.find_spec hex).1 hmin (Nat.find_spec hex).2
      rw [this] at h
      exact ⟨Nat.find hex, (Nat.find_spec hex).1, hmin, (Nat.find_spec hex).2,
        (Option.some.inj h).symm⟩
    · have hall : ∀ j, j < fuel → candidate rnd k j ∈ db.codes := by
        intro j hj
        by_contra hc
        exact hex ⟨j, hj, hc⟩
      rw [postOrders_running isEmail env now rnd fuel db k req hp hall] at h
      exact absurd h (by simp)
  · left
    obtain ⟨res, hres, hcase⟩ := postOrders_rejects isEmail env now rnd fuel db k req hp
    rw [hres] at h
    exact ⟨hp, res, (Option.some.inj h).symm, hcase⟩

/-- The stored name of a kept file is never empty. -/
theorem filename_ne_empty (f : IncomingFile) : f.filename ≠ "" := by
  intro h
  have hlen : f.filename.data.length = 0 := by rw [h]; rfl
  have h2 : ∀ l : List (Fin 256), (l.flatMap hexByte).length = 2 * l.length := by
    intro l
    induction l with
    | nil => rfl
    | cons b l ih => simp only [List.flatMap_cons, List.length_append, ih, hexByte,
        List.length_cons, List.length_nil]; omega
  have h3 : f.filename.data.length = 32 := by
    show (f.nameBytes.flatMap hexByte).length = 32
    rw [h2, f.nameLen]
  omega

/-- Behind a rate limiter that lets the request through and an upload
middleware that raises no error, the route answers what the handler answers. -/
theorem postOrdersRoute_handler (rejectsAtLimit : Bool) (isEmail : String → Bool) (env : Env)
    (now : String) (rnd : RandomSource) (fuel : Nat) (db : Db) (k : Nat) (body : OrderForm)
    (upload : Option IncomingFile) (file : Option ReqFile)
    (hup : uploadSingle rejectsAtLimit upload = .ok file) :
    postOrdersRoute false rejectsAtLimit isEmail env now rnd fuel db k body upload =
      postOrders isEmail env now rnd fuel db k ⟨body, file⟩ := by
  simp only [postOrdersRoute, hup, Bool.false_eq_true, if_false]

/-- Every answer of the route is that of the rate limiter, of the error handler
for an upload error, or of the handler. -/
theorem postOrdersRoute_cases (limited rejectsAtLimit : Bool) (isEmail : String → Bool)
    (env : Env) (now : String) (rnd : RandomSource) (fuel : Nat) (db : Db) (k : Nat)
    (body : OrderForm) (upload : Option IncomingFile) (o : OrderOutcome)
    (h : postOrdersRoute limited rejectsAtLimit isEmail env now rnd fuel db k body upload =
      some o) :
    o = ⟨⟨429, .error "Too many requests, slow down"⟩, db, none, k⟩ ∨
    (∃ code, o = ⟨⟨500, .errorPage code⟩, db, none, k⟩) ∨
    (∃ file, limited = false ∧ uploadSingle rejectsAtLimit upload = .ok file ∧
      postOrders isEmail env now rnd fuel db k ⟨body, file⟩ = some o) := by
  unfold postOrdersRoute at h
  cases limited with
  | true =>
    simp only [if_true] at h
    exact Or.inl (Option.some.inj h).symm
  | false =>
    simp only [Bool.false_eq_true, if_false] at h
    cases hup : uploadSingle rejectsAtLimit upload with
    | error code =>
      rw [hup] at h
      exact Or.inr (Or.inl ⟨code, (Option.some.inj h).symm⟩)
    | ok file =>
      rw [hup] at h
      exact Or.inr (Or.inr ⟨file, rfl, rfl, h⟩)

/-! ## CSV fields, lookup and session -/

theorem undoubleQuotes_pair (rest : List Char) :
    undoubleQuotes (dquote :: dquote :: rest) = dquote :: undoubleQuotes rest := by
  simp [undoubleQuotes]

theorem undoubleQuotes_other (c : Char) (hc : c ≠ dquote) (rest : List Char) :
    undoubleQuotes (c :: rest) = c :: undoubleQuotes rest := by
  cases rest <;> simp [undoubleQuotes, hc]

theorem undoubleQuotes_double (l : List Char) :
    undoubleQuotes (l.flatMap (fun c => if c = dquote then [dquote, dquote] else [c])) = l := by
  induction l with
  | nil => rfl
  | cons c l ih =>
    by_cases hc : c = dquote
    · simp only [List.flatMap_cons, if_pos hc, List.cons_append, List.nil_append]
      rw [undoubleQuotes_pair, ih, hc]
    · simp only [List.flatMap_cons, if_neg hc, List.cons_append, List.nil_append]
      rw [undoubleQuotes_other c hc, ih]

theorem readCsvField_quoted (t : String) :
    readCsvField (String.singleton dquote ++ replaceQuotes t ++ String.singleton dquote) = t := by
  unfold readCsvField replaceQuotes
  simp only [String.data_append, String.singleton, String.push, List.nil_append,
    List.singleton_append, List.drop_succ_cons, List.drop_zero, List.dropLast_concat]
  show String.mk (undoubleQuotes (List.dropLast (_ ++ [dquote]))) = t
  rw [List.dropLast_concat, undoubleQuotes_double]

theorem csvFields_eq (r : OrderRow) :
    cols.map (csvField r) =
      (columnTexts r).map
        (fun t => String.singleton dquote ++ replaceQuotes t ++ String.singleton dquote) := by
  have hid : (if r.id.val = 0 then "" else toString r.id.val) = toString r.id.val :=
    if_neg (Nat.pos_iff_ne_zero.mp r.id.pos)
  cases hp : r.phone <;> cases hf : r.file_filename <;> cases ho : r.file_originalname <;>
    simp [cols, columnTexts, csvField, OrderRow.column, JsValue.orEmptyString, JsValue.ofText,
      hp, hf, ho, hid]

theorem getOrderByCode_inserted (db : Db) (row : OrderRow) (seq : Nat)
    (h : row.code ∉ db.codes) :
    getOrderByCode ⟨db.rows ++ [row], seq⟩ row.code =
      ⟨200, .order ⟨row.id, row.code, row.name, row.email, row.phone, row.details,
        if truthy row.file_filename then some ⟨row.file_filename.getD "", row.file_originalname⟩
        else none, row.createdAt⟩⟩ := by
  have hf := (find_code_none db row.code).mpr h
  simp only [getOrderByCode, Db.get, List.find?_append, hf, Option.none_or, List.find?_cons,
    decide_True]

theorem adminStep_isAdmin (env : Env) (db : Db) (s : Session) (req : AdminRequest) :
    (adminStep env db s req).2.isAdmin = true ↔
      req = goodLogin env ∨ (s.isAdmin = true ∧ req ≠ .logout) := by
  cases req with
  | login user pass =>
    by_cases hc : user = some (orDefault env.ADMIN_USER "admin") ∧
        pass = some (orDefault env.ADMIN_PASS "password")
    · simp [adminStep, adminLogin, goodLogin, hc]
    · have hne : AdminRequest.login user pass ≠ goodLogin env := by
        intro h
        simp only [goodLogin, AdminRequest.login.injEq] at h
        exact hc h
      simp [adminStep, adminLogin, hc, hne]
  | logout => simp [adminStep, adminLogout, goodLogin]
  | listOrders => simp [adminStep, goodLogin]
  | exportCsv => simp [adminStep, goodLogin]

theorem runSession_isAdmin (env : Env) (db : Db) (pre : List AdminRequest) :
    ∀ s : Session, (runSession env db s pre).isAdmin = true ↔
      (s.isAdmin = true ∧ AdminRequest.logout ∉ pre) ∨
      ∃ a b, pre = a ++ goodLogin env :: b ∧ AdminRequest.logout ∉ b := by
  induction pre with
  | nil => intro s; simp [runSession]
  | cons req pre ih =>
    intro s
    have hstep : runSession env db s (req :: pre) =
        runSession env db (adminStep env db s req).2 pre := rfl
    rw [hstep, ih, adminStep_isAdmin]
    constructor
    · rintro (⟨hs | ⟨hs, hreq⟩, hpre⟩ | ⟨a, b, hab, hb⟩)
      · exact Or.inr ⟨[], pre, by rw [hs]; rfl, hpre⟩
      · refine Or.inl ⟨hs, ?_⟩
        intro hmem
        rcases List.mem_cons.mp hmem with h | h
        · exact hreq h.symm
        · exact hpre h
      · exact Or.inr ⟨req :: a, b, by rw [hab]; rfl, hb⟩
    · rintro (⟨hs, hmem⟩ | ⟨a, b, hab, hb⟩)
      · refine Or.inl ⟨Or.inr ⟨hs, ?_⟩, fun h => hmem (List.mem_cons_of_mem _ h)⟩
        rintro rfl
        exact hmem (List.mem_cons_self _ _)
      · cases a with
        | nil =>
          simp only [List.nil_append, List.cons.injEq] at hab
          exact Or.inl ⟨Or.inl hab.1, by rw [hab.2]; exact hb⟩
        | cons x a =>
          simp only [List.cons_append, List.cons.injEq] at hab
          exact Or.inr ⟨a, b, hab.2, hb⟩

/-! ## Properties of the order flow -/

/-- C1: for every outcome of the random source, `generateCode()` with its default
length 6 returns a string of exactly 6 characters, each one of the 31 characters
of the alphabet (so never `I`, `L`, `O`, `0` or `1`); and the code of every
successful answer of `POST /api/orders` is such a string. -/
theorem generateCode_in_alphabet :
    chars.length = 31 ∧
    (∀ (rnd : RandomSource) (k : Nat),
      (generateCode rnd k 6).1.length = 6 ∧
      ∀ c ∈ (generateCode rnd k 6).1.data,
        c ∈ chars.data ∧ c ≠ 'I' ∧ c ≠ 'L' ∧ c ≠ 'O' ∧ c ≠ '0' ∧ c ≠ '1') ∧
    (∀ (isEmail : String → Bool) (env : Env) (now : String) (rnd : RandomSource)
        (fuel : Nat) (db : Db) (k : Nat) (req : OrderRequest) (o : OrderOutcome)
        (url code : String),
      postOrders isEmail env now rnd fuel db k req = some o →
      o.res.body = .created url code →
      code.length = 6 ∧ ∀ c ∈ code.data, c ∈ chars.data) := by
  refine ⟨by decide, ?_, ?_⟩
  · intro rnd k
    obtain ⟨_, hlen, hmem⟩ := generateCode_spec rnd k
    refine ⟨hlen, fun c hc => ⟨hmem c hc, ?_⟩⟩
    have hc2 := hmem c hc
    refine ⟨?_, ?_, ?_, ?_, ?_⟩ <;> (rintro rfl; revert hc2; decide)
  · intro isEmail env now rnd fuel db k req o url code h hbody
    rcases postOrders_cases isEmail env now rnd fuel db k req o h with
      ⟨_, res, ho, ⟨msg, hres, _⟩ | hres⟩ | ⟨_, n, _, _, _, ho⟩
    · rw [ho, hres] at hbody; cases hbody
    · rw [ho, hres] at hbody; cases hbody
    · rw [ho] at hbody
      cases hbody
      obtain ⟨_, hlen, hmem⟩ := generateCode_spec rnd (k + 6 * n)
      exact ⟨hlen, hmem⟩

/-- The example form sent to the empty table, with a random source that always
yields 0, is answered with a code of the alphabet. -/
theorem generateCode_in_alphabet_witness :
    postOrders acceptsExampleAddress emptyEnv exampleNow (fun _ => zeroDraw) 1 emptyDb 0
      ⟨exampleForm, none⟩ = some firstOutcome ∧
    "AAAAAA".length = 6 ∧ ∀ c ∈ "AAAAAA".data, c ∈ chars.data :=
  ⟨by decide,
    generateCode_in_alphabet.2.2 acceptsExampleAddress emptyEnv exampleNow
      (fun _ => zeroDraw) 1 emptyDb 0 ⟨exampleForm, none⟩ firstOutcome
      "/o/AAAAAA" "AAAAAA" (by decide) rfl⟩

/-- C2: code uniqueness is preserved by every submission: if the stored codes
are pairwise distinct before a request to `POST /api/orders`, they are pairwise
distinct after it, whatever the input and the candidates drawn; the code of a
successful answer is none of the codes stored before (and is stored after), and
the insert never runs into the `UNIQUE` constraint. -/
theorem postOrders_preserves_unique_codes (isEmail : String → Bool) (env : Env) (now : String)
    (rnd : RandomSource) (fuel : Nat) (db : Db) (k : Nat) (req : OrderRequest)
    (o : OrderOutcome) (hnodup : db.codes.Nodup)
    (h : postOrders isEmail env now rnd fuel db k req = some o) :
    o.db.codes.Nodup ∧
    (∀ url code, o.res.body = .created url code → code ∉ db.codes ∧ code ∈ o.db.codes) ∧
    o.res.body ≠ .failure "DB insert error" := by
  rcases postOrders_cases isEmail env now rnd fuel db k req o h with
    ⟨_, res, ho, ⟨msg, hres, hmsg⟩ | hres⟩ | ⟨_, n, _, _, hfresh, ho⟩
  · subst ho hres
    refine ⟨hnodup, ?_, ?_⟩
    · intro url code hbody
      cases hbody
    · rcases hmsg with rfl | rfl | rfl <;> simp
  · subst ho hres
    refine ⟨hnodup, ?_, by simp⟩
    intro url code hbody
    cases hbody
  · subst ho
    have hcodes : Db.codes ⟨db.rows ++ [insertedRow db now (candidate rnd k n) req],
        db.nextId.val⟩ = db.codes ++ [candidate rnd k n] := by
      simp [Db.codes, insertedRow]
    refine ⟨?_, ?_, by simp⟩
    · show (Db.codes _).Nodup
      rw [hcodes]
      exact List.Nodup.append hnodup (List.nodup_singleton _) (by simpa using hfresh)
    · intro url code hbody
      cases hbody
      exact ⟨hfresh, by show _ ∈ Db.codes _; rw [hcodes]; simp⟩

/-- A submission to the table that holds `AAAAAA`, whose first candidate
collides and whose second is `BBBBBB`, keeps the codes distinct. -/
theorem postOrders_preserves_unique_codes_witness :
    storedDb.codes.Nodup ∧
    postOrders acceptsExampleAddress emptyEnv exampleNow oneThenFresh 2 storedDb 0
      ⟨exampleForm, none⟩ = some secondOutcome ∧
    secondOutcome.db.codes.Nodup ∧
    (∀ url code, secondOutcome.res.body = .created url code →
      code ∉ storedDb.codes ∧ code ∈ secondOutcome.db.codes) ∧
    secondOutcome.res.body ≠ .failure "DB insert error" :=
  ⟨by decide, by decide,
    postOrders_preserves_unique_codes acceptsExampleAddress emptyEnv exampleNow oneThenFresh 2
      storedDb 0 ⟨exampleForm, none⟩ secondOutcome (by decide) (by decide)⟩

/-- C3: the handler of `POST /api/orders` computes `validator.escape` of the name
and of the details but binds the raw values to the insert: for every accepted
submission the row appended to the table carries the submitted name and details
unchanged, and for the name `<b>Al</b>` the escaped text
`&lt;b&gt;Al&lt;&#x2F;b&gt;` differs from what is stored. -/
theorem postOrders_stores_unescaped_text :
    (∀ (isEmail : String → Bool) (env : Env) (now : String) (rnd : RandomSource)
        (fuel : Nat) (db : Db) (k : Nat) (req : OrderRequest) (o : OrderOutcome)
        (url code : String),
      postOrders isEmail env now rnd fuel db k req = some o →
      o.res.body = .created url code →
      ∃ row, o.db.rows = db.rows ++ [row] ∧ row.code = code ∧
        req.body.name = .string row.name ∧ req.body.details = .string row.details) ∧
    validatorEscape "<b>Al</b>" = "&lt;b&gt;Al&lt;&#x2F;b&gt;" ∧
    validatorEscape "<b>Al</b>" ≠ "<b>Al</b>" := by
  refine ⟨?_, by decide, by decide⟩
  intro isEmail env now rnd fuel db k req o url code h hbody
  rcases postOrders_cases isEmail env now rnd fuel db k req o h with
    ⟨_, res, ho, ⟨msg, hres, _⟩ | hres⟩ | ⟨hp, n, _, _, _, ho⟩
  · rw [ho, hres] at hbody; cases hbody
  · rw [ho, hres] at hbody; cases hbody
  · subst ho
    cases hbody
    exact ⟨_, rfl, rfl, (isString_iff _).mp hp.1.1, (isString_iff _).mp hp.2.2.1.1⟩

/-- The example form, whose name is `<b>Al</b>`, is accepted on the empty
table, and the stored row has the name `<b>Al</b>`, not its escaped text. -/
theorem postOrders_stores_unescaped_text_witness :
    postOrders acceptsExampleAddress emptyEnv exampleNow (fun _ => zeroDraw) 1 emptyDb 0
      ⟨exampleForm, none⟩ = some firstOutcome ∧
    firstOutcome.db.rows.map (fun r => r.name) = ["<b>Al</b>"] ∧
    ∃ row, firstOutcome.db.rows = emptyDb.rows ++ [row] ∧ row.code = "AAAAAA" ∧
      exampleForm.name = .string row.name ∧ exampleForm.details = .string row.details :=
  ⟨by decide, by decide,
    postOrders_stores_unescaped_text.1 acceptsExampleAddress emptyEnv exampleNow
      (fun _ => zeroDraw) 1 emptyDb 0 ⟨exampleForm, none⟩ firstOutcome "/o/AAAAAA" "AAAAAA"
      (by decide) rfl⟩

/-- C4 (as amended): a submission that validation rejects leaves the store
untouched: when name, email or details is missing or falsy, or the email is a
string that fails the syntax check, or the email is a string and the details
are a string of fewer than 5 characters, then `POST /api/orders` answers 400
with `success: false` as soon as the rate limiter and the upload middleware let
the request through, and whatever they do no row is inserted and no code is
drawn. -/
theorem postOrders_rejection_keeps_store (rejectsAtLimit : Bool) (isEmail : String → Bool)
    (env : Env) (now : String) (rnd : RandomSource) (fuel : Nat) (db : Db) (k : Nat)
    (body : OrderForm) (upload : Option IncomingFile) (file : Option ReqFile)
    (hup : uploadSingle rejectsAtLimit upload = .ok file)
    (h : body.name.truthy = false ∨ body.email.truthy = false ∨ body.details.truthy = false ∨
      ∃ e, body.email = .string e ∧
        (isEmail e = false ∨ ∃ d, body.details = .string d ∧ d.length < 5)) :
    (∃ msg, postOrdersRoute false rejectsAtLimit isEmail env now rnd fuel db k body upload =
      some ⟨⟨400, .failure msg⟩, db, none, k⟩) ∧
    (∀ (limited atLimit : Bool) (upload2 : Option IncomingFile) (o : OrderOutcome),
      postOrdersRoute limited atLimit isEmail env now rnd fuel db k body upload2 = some o →
      o.db = db ∧ o.cursor = k ∧ o.res.status ≠ 200) := by
  have hp : ¬ passesChecks isEmail body := by
    rintro ⟨⟨_, hn⟩, ⟨_, he⟩, ⟨_, hd⟩, hm, hl⟩
    rcases h with h | h | h | ⟨e, hs, h | ⟨d, hds, h⟩⟩
    · rw [hn] at h; cases h
    · rw [he] at h; cases h
    · rw [hd] at h; cases h
    · rw [hs] at hm; rw [show (FormValue.string e).str = e from rfl, h] at hm; cases hm
    · rw [hds] at hl; have : (FormValue.string d).str = d := rfl
      rw [this] at hl; omega
  have hkey : ∀ (f : Option ReqFile), ∃ msg,
      postOrders isEmail env now rnd fuel db k ⟨body, f⟩ =
        some ⟨⟨400, .failure msg⟩, db, none, k⟩ := by
    intro f
    by_cases ht : body.name.truthy = true ∧ body.email.truthy = true ∧
        body.details.truthy = true
    · obtain ⟨hn, he, hd⟩ := ht
      rcases h with h | h | h | ⟨e, hs, h⟩
      · rw [hn] at h; cases h
      · rw [he] at h; cases h
      · rw [hd] at h; cases h
      · cases hm : isEmail e with
        | false =>
          exact ⟨_, postOrders_invalidEmail isEmail env now rnd fuel db k ⟨body, f⟩ e hn he hd
            hs hm⟩
        | true =>
          rcases h with h | ⟨d, hds, hl⟩
          · rw [hm] at h; cases h
          · exact ⟨_, postOrders_tooShort isEmail env now rnd fuel db k ⟨body, f⟩ e d hn he hd
              hs hm hds hl⟩
    · refine ⟨_, postOrders_missing isEmail env now rnd fuel db k ⟨body, f⟩ ?_⟩
      by_contra hc
      apply ht
      simp only [not_or, Bool.not_eq_false] at hc
      exact hc
  refine ⟨?_, ?_⟩
  · rw [postOrdersRoute_handler rejectsAtLimit isEmail env now rnd fuel db k body upload file hup]
    exact hkey file
  · intro limited atLimit upload2 o ho
    rcases postOrdersRoute_cases limited atLimit isEmail env now rnd fuel db k body upload2 o ho
      with rfl | ⟨code, rfl⟩ | ⟨f, _, _, hpost⟩
    · exact ⟨rfl, rfl, by simp⟩
    · exact ⟨rfl, rfl, by simp⟩
    · obtain ⟨msg, hmsg⟩ := hkey f
      rw [hmsg] at hpost
      cases hpost
      exact ⟨rfl, rfl, by simp⟩

/-- The example form without its name, sent with a small PDF to a table that
holds an order, is answered 400 and the table still holds exactly that order. -/
theorem postOrders_rejection_keeps_store_witness :
    uploadSingle false (some pdfUpload) =
      .ok (some ⟨"0f3a9c0102030405060708090a0b0c0d", "scan.pdf", "application/pdf", 1024⟩) ∧
    ∃ msg, postOrdersRoute false false acceptsExampleAddress emptyEnv exampleNow
        (fun _ => zeroDraw) 0 storedDb 0 namelessForm (some pdfUpload) =
      some ⟨⟨400, .failure msg⟩, storedDb, none, 0⟩ :=
  ⟨rfl,
    (postOrders_rejection_keeps_store false acceptsExampleAddress emptyEnv exampleNow
      (fun _ => zeroDraw) 0 storedDb 0 namelessForm (some pdfUpload)
      (some ⟨"0f3a9c0102030405060708090a0b0c0d", "scan.pdf", "application/pdf", 1024⟩)
      rfl (Or.inl rfl)).1⟩

/-- C4, as stated, fails: the example form without its name, sent with a PDF of
8388609 bytes, is answered 500 by the upload middleware, and the example form
with the number 5 as email is answered 500 because the email check throws;
neither answer is a 400. -/
theorem rejection_is_not_always_400 :
    namelessForm.name.truthy = false ∧
    (postOrdersRoute false false acceptsExampleAddress emptyEnv exampleNow (fun _ => zeroDraw) 1
        storedDb 0 namelessForm (some bigUpload)).map (fun o => o.res) =
      some ⟨500, .errorPage "LIMIT_FILE_SIZE"⟩ ∧
    (postOrdersRoute false false acceptsExampleAddress emptyEnv exampleNow (fun _ => zeroDraw) 1
        storedDb 0 numberEmailForm none).map (fun o => o.res) =
      some ⟨500, .errorPage "TypeError"⟩ := by
  decide

/-- C5 (as amended): for a submission that the rate limiter and the upload
middleware let through, the verdict of validation is that of the first failing
check in the order presence, email syntax, details length: the missing-field
error when name, email or details is absent or falsy; otherwise, the email
being a string, `invalid email` when it fails the syntax check, whatever the
details; otherwise, the details being a string, `details too short` when they
have fewer than 5 characters; the submission passes validation (every answer
is a 200) exactly when the three fields are non-empty strings and none of the
checks fails, and with string fields every failure is one of the three 400
answers; details `hi` are too short and details `hello` pass, the order being
created once a fresh candidate is drawn. -/
theorem postOrders_validation_order (rejectsAtLimit : Bool) (isEmail : String → Bool)
    (env : Env) (now : String) (rnd : RandomSource) (fuel : Nat) (db : Db) (k : Nat)
    (body : OrderForm) (upload : Option IncomingFile) (file : Option ReqFile)
    (hup : uploadSingle rejectsAtLimit upload = .ok file) :
    ((body.name.truthy = false ∨ body.email.truthy = false ∨ body.details.truthy = false) →
      postOrdersRoute false rejectsAtLimit isEmail env now rnd fuel db k body upload =
        some ⟨⟨400, .failure "name, email and details are required"⟩, db, none, k⟩) ∧
    (∀ e, body.name.truthy = true → body.email.truthy = true → body.details.truthy = true →
      body.email = .string e → isEmail e = false →
      postOrdersRoute false rejectsAtLimit isEmail env now rnd fuel db k body upload =
        some ⟨⟨400, .failure "invalid email"⟩, db, none, k⟩) ∧
    (∀ e d, body.name.truthy = true → body.email.truthy = true → body.details.truthy = true →
      body.email = .string e → isEmail e = true → body.details = .string d → d.length < 5 →
      postOrdersRoute false rejectsAtLimit isEmail env now rnd fuel db k body upload =
        some ⟨⟨400, .failure "details too short"⟩, db, none, k⟩) ∧
    (passesChecks isEmail body ↔
      ∀ o, postOrdersRoute false rejectsAtLimit isEmail env now rnd fuel db k body upload =
        some o → o.res.status = 200) ∧
    (body.name.isString = true → body.email.isString = true → body.details.isString = true →
      ¬ passesChecks isEmail body →
      ∃ msg, postOrdersRoute false rejectsAtLimit isEmail env now rnd fuel db k body upload =
          some ⟨⟨400, .failure msg⟩, db, none, k⟩ ∧
        (msg = "name, email and details are required" ∨ msg = "invalid email" ∨
          msg = "details too short")) ∧
    (∀ e, body.name.truthy = true → body.email = .string e → e ≠ "" → isEmail e = true →
      body.details = .string "hi" →
      postOrdersRoute false rejectsAtLimit isEmail env now rnd fuel db k body upload =
        some ⟨⟨400, .failure "details too short"⟩, db, none, k⟩) ∧
    (∀ n e, body.name = .string n → n ≠ "" → body.email = .string e → e ≠ "" →
      isEmail e = true → body.details = .string "hello" →
      passesChecks isEmail body ∧
      (0 < fuel → candidate rnd k 0 ∉ db.codes →
        ∃ o, postOrdersRoute false rejectsAtLimit isEmail env now rnd fuel db k body upload =
            some o ∧
          o.res = ⟨200, .created ("/o/" ++ candidate rnd k 0) (candidate rnd k 0)⟩)) := by
  rw [postOrdersRoute_handler rejectsAtLimit isEmail env now rnd fuel db k body upload file hup]
  refine ⟨postOrders_missing isEmail env now rnd fuel db k ⟨body, file⟩,
    fun e hn he hd hs hm =>
      postOrders_invalidEmail isEmail env now rnd fuel db k ⟨body, file⟩ e hn he hd hs hm,
    fun e d hn he hd hs hm hds hl =>
      postOrders_tooShort isEmail env now rnd fuel db k ⟨body, file⟩ e d hn he hd hs hm hds hl,
    ?_, ?_, ?_, ?_⟩
  · constructor
    · intro hp o ho
      rcases postOrders_cases isEmail env now rnd fuel db k ⟨body, file⟩ o ho with
        ⟨hnp, _⟩ | ⟨_, n, _, _, _, ho2⟩
      · exact absurd hp hnp
      · subst ho2; rfl
    · intro hall
      by_contra hp
      obtain ⟨res, hres, hcase⟩ :=
        postOrders_rejects isEmail env now rnd fuel db k ⟨body, file⟩ hp
      have h200 := hall _ hres
      rcases hcase with ⟨msg, rfl, _⟩ | rfl
      · simp at h200
      · simp at h200
  · intro hns hes hds hp
    rcases not_passesChecks isEmail body hp with
      h1 | ⟨⟨hn, he, hd⟩, ⟨e, hs, hm⟩ | ⟨e, d, hs, hm, hdd, hl⟩ | ht⟩
    · exact ⟨_, postOrders_missing isEmail env now rnd fuel db k ⟨body, file⟩ h1, Or.inl rfl⟩
    · exact ⟨_, postOrders_invalidEmail isEmail env now rnd fuel db k ⟨body, file⟩ e hn he hd
        hs hm, Or.inr (Or.inl rfl)⟩
    · exact ⟨_, postOrders_tooShort isEmail env now rnd fuel db k ⟨body, file⟩ e d hn he hd
        hs hm hdd hl, Or.inr (Or.inr rfl)⟩
    · exfalso
      rcases ht with h | ⟨_, _, h | ⟨_, _, h⟩⟩
      · rw [hes] at h; cases h
      · rw [hds] at h; cases h
      · rw [hns] at h; cases h
  · intro e hn hs hne hm hd
    exact postOrders_tooShort isEmail env now rnd fuel db k ⟨body, file⟩ e "hi" hn
      (by rw [hs]; simpa [FormValue.truthy] using hne) (by rw [hd]; decide) hs hm hd (by decide)
  · intro n e hn hnne hs hne hm hd
    have hp : passesChecks isEmail body := by
      refine ⟨⟨by rw [hn]; rfl, by rw [hn]; simpa [FormValue.truthy] using hnne⟩,
        ⟨by rw [hs]; rfl, by rw [hs]; simpa [FormValue.truthy] using hne⟩,
        ⟨by rw [hd]; rfl, by rw [hd]; decide⟩, by rw [hs]; exact hm, by rw [hd]; decide⟩
    refine ⟨hp, fun hfuel hfresh => ?_⟩
    exact ⟨_, postOrders_accepts isEmail env now rnd fuel db k ⟨body, file⟩ 0 hp hfuel
      (fun j hj => absurd hj (Nat.not_lt_zero j)) hfresh, rfl⟩

/-- The example form with details `hi` is rejected as too short, and with
details `hello` it passes the checks and is answered 200 on the empty table. -/
theorem postOrders_validation_order_witness :
    postOrdersRoute false false acceptsExampleAddress emptyEnv exampleNow (fun _ => zeroDraw) 1
        emptyDb 0 shortForm none =
      some ⟨⟨400, .failure "details too short"⟩, emptyDb, none, 0⟩ ∧
    ∃ o, postOrdersRoute false false acceptsExampleAddress emptyEnv exampleNow
        (fun _ => zeroDraw) 1 emptyDb 0 exampleForm none = some o ∧
      o.res = ⟨200, .created ("/o/" ++ candidate (fun _ => zeroDraw) 0 0)
        (candidate (fun _ => zeroDraw) 0 0)⟩ :=
  ⟨(postOrders_validation_order false acceptsExampleAddress emptyEnv exampleNow
      (fun _ => zeroDraw) 1 emptyDb 0 shortForm none none rfl).2.2.2.2.2.1
      "al@example.com" (by decide) rfl (by decide) (by decide) rfl,
    ((postOrders_validation_order false acceptsExampleAddress emptyEnv exampleNow
      (fun _ => zeroDraw) 1 emptyDb 0 exampleForm none none rfl).2.2.2.2.2.2
      "<b>Al</b>" "al@example.com" rfl (by decide) rfl (by decide) (by decide) rfl).2
      (by decide) (by decide)⟩

/-- C5, as stated, fails: the example form with the number 5 as email has no
missing field, yet the answer is neither `invalid email` nor an acceptance but
the 500 of a thrown `TypeError`; and the example form without its name, sent
with a PDF of 8388609 bytes, is not answered the missing-field error but the
500 of the upload middleware. -/
theorem verdict_is_not_always_a_check :
    (numberEmailForm.name.truthy = true ∧ numberEmailForm.email.truthy = true ∧
      numberEmailForm.details.truthy = true) ∧
    postOrders acceptsExampleAddress emptyEnv exampleNow (fun _ => zeroDraw) 1 emptyDb 0
        ⟨numberEmailForm, none⟩ =
      some ⟨⟨500, .errorPage "TypeError"⟩, emptyDb, none, 0⟩ ∧
    postOrdersRoute false false acceptsExampleAddress emptyEnv exampleNow (fun _ => zeroDraw) 1
        emptyDb 0 namelessForm (some bigUpload) =
      some ⟨⟨500, .errorPage "LIMIT_FILE_SIZE"⟩, emptyDb, none, 0⟩ := by
  decide

/-- C6: the CSV export quotes every field and doubles embedded quotes: for every
stored order, an authenticated `GET /api/orders.csv` writes its line, which is
the 9 fields of the columns id, code, name, email, phone, details,
file_filename, file_originalname, createdAt joined by commas, each field a
double quote, the column text with every double quote doubled, and a double
quote (`null` gives the empty field); removing the outer quotes and un-doubling
the inner ones gives the column text back; details `He said "hi"` are written
as `"He said ""hi"""`. -/
theorem csv_export_quotes_fields (db : Db) (r : OrderRow) (h : r ∈ db.rows) :
    (∃ rows : List OrderRow, r ∈ rows ∧ getOrdersCsv ⟨true⟩ db =
      ⟨200, .csv ("id,code,name,email,phone,details,file_filename,file_originalname,createdAt\n"
        :: rows.map (fun x => csvLine x ++ "\n"))⟩) ∧
    csvLine r = String.intercalate ","
      ((columnTexts r).map
        (fun t => String.singleton dquote ++ replaceQuotes t ++ String.singleton dquote)) ∧
    (columnTexts r).length = 9 ∧
    (∀ t ∈ columnTexts r,
      readCsvField (String.singleton dquote ++ replaceQuotes t ++ String.singleton dquote) = t) ∧
    (r.details = "He said \"hi\"" → csvField r "details" = "\"He said \"\"hi\"\"\"") := by
  refine ⟨⟨db.rows.insertionSort (fun (a b : OrderRow) => b.id ≤ a.id), ?_, ?_⟩, ?_, rfl,
    fun t _ => readCsvField_quoted t, ?_⟩
  · exact (List.perm_insertionSort _ db.rows).mem_iff.mpr h
  · have hh : String.intercalate "," cols ++ "\n" =
        "id,code,name,email,phone,details,file_filename,file_originalname,createdAt\n" := by
      decide
    simp only [getOrdersCsv, checkSessionAuth, Db.all, if_true, hh]
  · rw [csvLine, csvFields_eq]
  · intro hd
    have hcol : r.column "details" = .string r.details := by
      simp [OrderRow.column]
    rw [csvField, hcol, hd]
    decide

/-- The row of `quotedDb`, whose details are `He said "hi"`, is exported with
the field `"He said ""hi"""`. -/
theorem csv_export_quotes_fields_witness :
    quotedRow ∈ quotedDb.rows ∧ csvField quotedRow "details" = "\"He said \"\"hi\"\"\"" :=
  ⟨by decide, (csv_export_quotes_fields quotedDb quotedRow (by decide)).2.2.2.2 rfl⟩

/-- C7: submit-then-lookup round trip for the file reference: after every
successful submission through the route, `GET /api/orders/:code` with the
returned code answers the record with that code; its `file` is non-null exactly
when an upload was attached and kept by the upload filter, and then its
`filename` and `originalname` are the stored filename and the original filename
of that upload. The stored filename is the 32 hexadecimal characters that
multer generates, so it is never the empty string. -/
theorem lookup_after_submit (limited rejectsAtLimit : Bool) (isEmail : String → Bool)
    (env : Env) (now : String) (rnd : RandomSource) (fuel : Nat) (db : Db) (k : Nat)
    (body : OrderForm) (upload : Option IncomingFile) (o : OrderOutcome) (url code : String)
    (h : postOrdersRoute limited rejectsAtLimit isEmail env now rnd fuel db k body upload =
      some o)
    (hs : o.res.body = .created url code) :
    ∃ order, getOrderByCode o.db code = ⟨200, .order order⟩ ∧ order.code = code ∧
      (order.file ≠ none ↔ ∃ f, upload = some f ∧ fileFilter f.toFileInfo = true) ∧
      (∀ fj, order.file = some fj →
        ∃ f, upload = some f ∧ fj.filename = f.filename ∧
          fj.originalname = some f.originalname) := by
  rcases postOrdersRoute_cases limited rejectsAtLimit isEmail env now rnd fuel db k body upload
    o h with rfl | ⟨c, rfl⟩ | ⟨file, _, hup, hpost⟩
  · cases hs
  · cases hs
  have key : getOrderByCode o.db code = ⟨200, .order ⟨db.nextId, code, body.name.str,
      body.email.str, body.phone.orNull, body.details.str,
      if truthy (file.map (fun f => f.filename)) then
        some ⟨(file.map (fun f => f.filename)).getD "", file.map (fun f => f.originalname)⟩
      else none, now⟩⟩ := by
    rcases postOrders_cases isEmail env now rnd fuel db k ⟨body, file⟩ o hpost with
      ⟨_, res, ho, ⟨msg, hres, _⟩ | hres⟩ | ⟨_, n, _, _, hfresh, ho⟩
    · rw [ho, hres] at hs; cases hs
    · rw [ho, hres] at hs; cases hs
    · subst ho
      cases hs
      exact getOrderByCode_inserted db (insertedRow db now (candidate rnd k n) ⟨body, file⟩) _
        hfresh
  refine ⟨_, key, rfl, ?_, ?_⟩
  · cases upload with
    | none =>
      simp only [uploadSingle] at hup
      cases hup
      simp [truthy]
    | some f =>
      have hne := filename_ne_empty f
      by_cases hk : fileFilter f.toFileInfo = true
      · by_cases hsz : fileSizeLimit < f.size ∨ (rejectsAtLimit = true ∧ f.size = fileSizeLimit)
        · simp only [uploadSingle, hk, hsz, if_true] at hup
          cases hup
        · simp only [uploadSingle, hk, hsz, if_true, if_false] at hup
          cases hup
          simp [truthy, hne, hk]
      · simp only [uploadSingle, hk] at hup
        cases hup
        simp [truthy, hk]
  · cases upload with
    | none =>
      simp only [uploadSingle] at hup
      cases hup
      simp [truthy]
    | some f =>
      have hne := filename_ne_empty f
      by_cases hk : fileFilter f.toFileInfo = true
      · by_cases hsz : fileSizeLimit < f.size ∨ (rejectsAtLimit = true ∧ f.size = fileSizeLimit)
        · simp only [uploadSingle, hk, hsz, if_true] at hup
          cases hup
        · simp only [uploadSingle, hk, hsz, if_true, if_false] at hup
          cases hup
          simp [truthy, hne]
      · simp only [uploadSingle, hk] at hup
        cases hup
        simp [truthy]

/-- The example form sent with a PDF upload is answered the code `AAAAAA`, and
the lookup of `AAAAAA` answers the record with the stored and the original name
of the upload. -/
theorem lookup_after_submit_witness :
    postOrdersRoute false false acceptsExampleAddress emptyEnv exampleNow (fun _ => zeroDraw) 1
      emptyDb 0 exampleForm (some pdfUpload) = some namedOutcome ∧
    getOrderByCode namedOutcome.db "AAAAAA" =
      ⟨200, .order ⟨1, "AAAAAA", "<b>Al</b>", "al@example.com", none, "hello",
        some ⟨"0f3a9c0102030405060708090a0b0c0d", some "scan.pdf"⟩, exampleNow⟩⟩ ∧
    ∃ order, getOrderByCode namedOutcome.db "AAAAAA" = ⟨200, .order order⟩ ∧
      order.code = "AAAAAA" ∧
      (order.file ≠ none ↔
        ∃ f, some pdfUpload = some f ∧ fileFilter f.toFileInfo = true) ∧
      (∀ fj, order.file = some fj →
        ∃ f, some pdfUpload = some f ∧ fj.filename = f.filename ∧
          fj.originalname = some f.originalname) :=
  ⟨by decide, by decide,
    lookup_after_submit false false acceptsExampleAddress emptyEnv exampleNow
      (fun _ => zeroDraw) 1 emptyDb 0 exampleForm (some pdfUpload) namedOutcome "/o/AAAAAA"
      "AAAAAA" (by decide) rfl⟩

/-- C8: the upload filter tests its expression without anchors, so it keeps
files whose extension merely contains an allowed name: `report.pdfx` and
`a.notpng`, sent as `application/octet-stream`, have the lower-cased extensions
`.pdfx` and `.notpng`, a MIME type that contains none of the eight names, and
are kept by the filter and handed to the handler. -/
theorem fileFilter_keeps_pdfx :
    toLowerCase (extname "report.pdfx") = ".pdfx" ∧
    toLowerCase (extname "a.notpng") = ".notpng" ∧
    allowedTest "application/octet-stream" = false ∧
    fileFilter ⟨"report.pdfx", "application/octet-stream"⟩ = true ∧
    fileFilter ⟨"a.notpng", "application/octet-stream"⟩ = true ∧
    (∀ rejectsAtLimit, (uploadSingle rejectsAtLimit (some pdfxUpload)).toOption =
      some (some ⟨"0f3a9c0102030405060708090a0b0c0d", "report.pdfx",
        "application/octet-stream", 1024⟩)) := by
  decide

/-- C9, as stated, fails: with the code `AAAAAA` stored and a random source that
always yields 0, no amount of fuel makes the handler answer (the loop never
ends, and no 500 is sent); and when the first twenty candidates collide and the
next is fresh, the twenty-first candidate is tried and the order is created. -/
theorem tryUnique_has_no_retry_cap :
    (¬ ∃ fuel, (postOrders acceptsExampleAddress emptyEnv exampleNow (fun _ => zeroDraw) fuel
      storedDb 0 ⟨exampleForm, none⟩).isSome = true) ∧
    (∀ j, j < 20 → candidate twentyThenFresh 0 j ∈ storedDb.codes) ∧
    (postOrders acceptsExampleAddress emptyEnv exampleNow twentyThenFresh 21 storedDb 0
      ⟨exampleForm, none⟩).map (fun o => (o.res, o.cursor)) =
      some (⟨200, .created "/o/BBBBBB" "BBBBBB"⟩, 126) := by
  refine ⟨?_, by decide, by decide⟩
  rintro ⟨fuel, hfuel⟩
  have hp : passesChecks acceptsExampleAddress exampleForm := by
    decide
  have hgen : ∀ j, candidate (fun _ => zeroDraw) 0 j = "AAAAAA" := by
    intro j
    show (generateCodeLoop (fun _ => zeroDraw) 6 (0 + 6 * j) "").1 = "AAAAAA"
    simp only [generateCodeLoop]
    decide
  have := postOrders_running acceptsExampleAddress emptyEnv exampleNow (fun _ => zeroDraw) fuel
    storedDb 0 ⟨exampleForm, none⟩ hp (fun j _ => by rw [hgen j]; decide)
  rw [this] at hfuel
  cases hfuel

/-- C9 (as amended): the allocation loop of an accepted submission has no cap
and no exhaustion error: when the candidates `0 .. n-1` collide with stored
codes and candidate `n` does not, the request is still running after `n`
lookups or fewer and is answered 200 with candidate `n` after exactly `n + 1`
candidates, the order being appended to the table; when every candidate
collides the request is never answered. -/
theorem tryUnique_retries_until_fresh (isEmail : String → Bool) (env : Env) (now : String)
    (rnd : RandomSource) (db : Db) (k : Nat) (req : OrderRequest)
    (h : passesChecks isEmail req.body) :
    (∀ n, (∀ j, j < n → candidate rnd k j ∈ db.codes) → candidate rnd k n ∉ db.codes →
      ∀ fuel,
        (fuel ≤ n → postOrders isEmail env now rnd fuel db k req = none) ∧
        (n < fuel → postOrders isEmail env now rnd fuel db k req =
          some ⟨⟨200, .created ("/o/" ++ candidate rnd k n) (candidate rnd k n)⟩,
            ⟨db.rows ++ [insertedRow db now (candidate rnd k n) req], db.nextId.val⟩,
            notification env (candidate rnd k n) (validatorEscape req.body.name.str)
              req.body.email.str (validatorEscape req.body.details.str)
              ("/o/" ++ candidate rnd k n), k + 6 * (n + 1)⟩)) ∧
    ((∀ j, candidate rnd k j ∈ db.codes) →
      ∀ fuel, postOrders isEmail env now rnd fuel db k req = none) := by
  refine ⟨fun n hstored hfresh fuel => ⟨fun hle => ?_, fun hlt => ?_⟩, fun hall fuel => ?_⟩
  · exact postOrders_running isEmail env now rnd fuel db k req h
      (fun j hj => hstored j (by omega))
  · exact postOrders_accepts isEmail env now rnd fuel db k req n h hlt hstored hfresh
  · exact postOrders_running isEmail env now rnd fuel db k req h (fun j _ => hall j)

/-- With `AAAAAA` stored, a first candidate `AAAAAA` and a second `BBBBBB`, the
request is running after one lookup and answered with `BBBBBB` after two. -/
theorem tryUnique_retries_until_fresh_witness :
    passesChecks acceptsExampleAddress exampleForm ∧
    postOrders acceptsExampleAddress emptyEnv exampleNow oneThenFresh 1 storedDb 0
      ⟨exampleForm, none⟩ = none ∧
    postOrders acceptsExampleAddress emptyEnv exampleNow oneThenFresh 2 storedDb 0
      ⟨exampleForm, none⟩ =
      some ⟨⟨200, .created ("/o/" ++ candidate oneThenFresh 0 1) (candidate oneThenFresh 0 1)⟩,
        ⟨storedDb.rows ++ [insertedRow storedDb exampleNow (candidate oneThenFresh 0 1)
          ⟨exampleForm, none⟩], storedDb.nextId.val⟩,
        notification emptyEnv (candidate oneThenFresh 0 1)
          (validatorEscape exampleForm.name.str) exampleForm.email.str
          (validatorEscape exampleForm.details.str) ("/o/" ++ candidate oneThenFresh 0 1),
        0 + 6 * (1 + 1)⟩ :=
  ⟨by decide,
    (((tryUnique_retries_until_fresh acceptsExampleAddress emptyEnv exampleNow oneThenFresh
      storedDb 0 ⟨exampleForm, none⟩ (by decide)).1 1 (by decide) (by decide)) 1).1 (by decide),
    (((tryUnique_retries_until_fresh acceptsExampleAddress emptyEnv exampleNow oneThenFresh
      storedDb 0 ⟨exampleForm, none⟩ (by decide)).1 1 (by decide) (by decide)) 2).2 (by decide)⟩

/-- C10: the admin listing is reachable only through a successful login: after
any sequence of requests on a session that starts unauthenticated, the session
is authenticated exactly when the sequence contains a login with the configured
user and password that no logout follows; `GET /api/orders` and
`GET /api/orders.csv` then answer the orders, and in every other case
401 `Unauthorized`; a login in which either field differs is answered the same
403 `Invalid credentials` and leaves the session as it was. -/
theorem admin_listing_requires_login (env : Env) (db : Db) (pre : List AdminRequest) :
    ((runSession env db ⟨false⟩ pre).isAdmin = true ↔
      ∃ a b, pre = a ++ goodLogin env :: b ∧ AdminRequest.logout ∉ b) ∧
    ((runSession env db ⟨false⟩ pre).isAdmin = true →
      (adminStep env db (runSession env db ⟨false⟩ pre) .listOrders).1 =
        ⟨200, .rows (db.rows.insertionSort (fun (a b : OrderRow) => b.id ≤ a.id))⟩ ∧
      (adminStep env db (runSession env db ⟨false⟩ pre) .exportCsv).1 =
        ⟨200, .csv ((String.intercalate "," cols ++ "\n") ::
          (db.rows.insertionSort (fun (a b : OrderRow) => b.id ≤ a.id)).map
            (fun r => csvLine r ++ "\n"))⟩) ∧
    ((runSession env db ⟨false⟩ pre).isAdmin = false →
      (adminStep env db (runSession env db ⟨false⟩ pre) .listOrders).1 =
        ⟨401, .error "Unauthorized"⟩ ∧
      (adminStep env db (runSession env db ⟨false⟩ pre) .exportCsv).1 =
        ⟨401, .error "Unauthorized"⟩) ∧
    (∀ (s : Session) (user pass : Option String),
      ¬ (user = some (orDefault env.ADMIN_USER "admin") ∧
        pass = some (orDefault env.ADMIN_PASS "password")) →
      adminStep env db s (.login user pass) = (⟨403, .failure "Invalid credentials"⟩, s)) ∧
    (∀ s : Session, adminStep env db s (goodLogin env) = (⟨200, .ok⟩, ⟨true⟩)) := by
  refine ⟨?_, ?_, ?_, ?_, ?_⟩
  · rw [runSession_isAdmin]
    simp
  · intro h
    simp [adminStep, getOrders, getOrdersCsv, checkSessionAuth, Db.all, h]
  · intro h
    simp [adminStep, getOrders, getOrdersCsv, checkSessionAuth, h]
  · intro s user pass hc
    simp only [adminStep, adminLogin, if_neg hc]
  · intro s
    simp [adminStep, adminLogin, goodLogin]

/-- With the default credentials: after a failed login and a good one the
listing answers the orders; after a later logout, or after a failed login only,
it answers 401. -/
theorem admin_listing_requires_login_witness :
    (adminStep emptyEnv storedDb
      (runSession emptyEnv storedDb ⟨false⟩
        [.login (some "admin") (some "guess"), .login (some "admin") (some "password")])
      .listOrders).1 = ⟨200, .rows storedDb.rows⟩ ∧
    (adminStep emptyEnv storedDb
      (runSession emptyEnv storedDb ⟨false⟩
        [.login (some "admin") (some "password"), .logout])
      .listOrders).1 = ⟨401, .error "Unauthorized"⟩ ∧
    adminStep emptyEnv storedDb ⟨false⟩ (.login (some "root") (some "password")) =
      (⟨403, .failure "Invalid credentials"⟩, ⟨false⟩) :=
  ⟨((admin_listing_requires_login emptyEnv storedDb
      [.login (some "admin") (some "guess"), .login (some "admin") (some "password")]).2.1
      (by decide)).1,
    ((admin_listing_requires_login emptyEnv storedDb
      [.login (some "admin") (some "password"), .logout]).2.2.1 (by decide)).1,
    (admin_listing_requires_login emptyEnv storedDb []).2.2.2.1 ⟨false⟩ (some "root")
      (some "password") (by decide)⟩

end PrintingOrders
